import Mathlib

/-!
Doodle-Crash: the round engine of `game.js`.

A shallow embedding of the round / physics / economy engine of `src/game.js`.

Modelling conventions.

* JavaScript numbers are modelled by exact rationals (`ℚ`): the engine functions compute
  without rounding.  Two loops whose rounding is visible in what the program does, the
  scroll of the platforms and the recycling, are given a second time with every operation
  rounded to binary64 (`roundToDouble`, `scrollPlatformsDouble`, `updatePlatformsDouble`).
  The one place where a non-finite number can enter the engine is the bet read from the
  input box; it is modelled by `Option ℚ`, `none` standing for every value on which
  `Number.isFinite` is false (`NaN`, `Infinity`, `-Infinity`).
* The three mutable globals `state`, `player`, `platforms` are the three fields of
  `Engine`; every function of the source that mutates them is a function `Engine → Engine`.
* `Math.random()` is a parameter: a function receives a stream `rnd : ℕ → ℚ` and reads
  `rnd 0`, `rnd 1`, ... in the order in which the source calls `Math.random()`.
* `keys` (the movement intent) and `delta` are parameters of `updateState`.
* `W` and `H` are `canvas.width` and `canvas.height`; the canvas is declared in the page,
  not in `game.js`, so both are parameters.
* Calls that only touch the page (`setMessage`, `playSfx`, `primeAudio`, drawing) do not
  change the engine and are left out of the engine functions; the text handed to
  `setMessage` by `startRound` is given by `startRoundMessage`, and the button flags written
  by `updateHud` are given by `updateHud`.
-/

namespace DoodleCrash

/-! ## Constants (game.js, lines 25-34) -/

def GRAVITY : ℚ := 35 / 100
def JUMP_VELOCITY : ℚ := -10
def MOVE_SPEED : ℚ := 35 / 10
def PLAYER_W : ℚ := 30
def PLAYER_H : ℚ := 34
def PLATFORM_W : ℚ := 70
def PLATFORM_H : ℚ := 12
def PLATFORM_COUNT : ℕ := 12
def HEIGHT_PER_MULT : ℚ := 200
def START_BALANCE : ℚ := 1000

/-! ## Data model (game.js, lines 36-55) -/

/-- The four values of `state.mode`. -/
inductive Mode where
  | idle
  | playing
  | crashing
  | ended
  deriving DecidableEq, Repr

/-- The two values of `platform.type`: the strings "normal" and "break". -/
inductive PlatformType where
  | normal
  | break_
  deriving DecidableEq, Repr

/-- The global object `state`. -/
structure State where
  mode : Mode
  balance : ℚ
  bet : ℚ
  multiplier : ℚ
  heightClimbed : ℚ
  crashMult : ℚ
  crashArmed : Bool
  lossSoundPlayed : Bool
  deriving DecidableEq

/-- The global object `player`. -/
structure Player where
  x : ℚ
  y : ℚ
  vx : ℚ
  vy : ℚ
  deriving DecidableEq

/-- An element of the global array `platforms`. -/
structure Platform where
  x : ℚ
  y : ℚ
  w : ℚ
  h : ℚ
  type : PlatformType
  deriving DecidableEq

/-- The global object `keys`. -/
structure Keys where
  left : Bool
  right : Bool
  deriving DecidableEq

/-- The engine: the three mutable globals of the script. -/
structure Engine where
  state : State
  player : Player
  platforms : List Platform
  deriving DecidableEq

/-- The flags `updateHud` writes to the buttons and the bet input. -/
structure Hud where
  cashoutBtnDisabled : Bool
  startBtnDisabled : Bool
  betInputDisabled : Bool
  deriving DecidableEq

/-- The values of `state`, `player` and `platforms` when the script is loaded, before the
calls at the bottom of the file (lines 36-55). -/
def initialEngine (W H : ℚ) : Engine where
  state :=
    { mode := Mode.idle
      balance := START_BALANCE
      bet := 10
      multiplier := 1
      heightClimbed := 0
      crashMult := 0
      crashArmed := false
      lossSoundPlayed := false }
  player := { x := W / 2 - PLAYER_W / 2, y := H - 80, vx := 0, vy := 0 }
  platforms := []

/-! ## Sampling law (lines 57-60) -/

/-- The function `sampleCrashMultiplier`, the draw `Math.random()` being the argument `r`. -/
def sampleCrashMultiplier (r : ℚ) : ℚ :=
  let r1 := max r (1 / 1000000)
  max (101 / 100) ((96 / 100) / r1)

/-! ## HUD (lines 92-99) -/

/-- The function `updateHud`: the three `disabled` flags it computes from `state`. -/
def updateHud (s : State) : Hud where
  cashoutBtnDisabled := decide (s.mode ≠ Mode.playing) || (s.crashArmed == true)
  startBtnDisabled := decide (s.mode = Mode.playing) || decide (s.mode = Mode.crashing)
  betInputDisabled := decide (s.mode = Mode.playing) || decide (s.mode = Mode.crashing)

/-! ## Reset of the player and of the platform field (lines 101-129) -/

/-- The function `resetPlayer`: the fresh player. -/
def resetPlayer (W H : ℚ) : Player :=
  { x := W / 2 - PLAYER_W / 2, y := H - 80, vx := 0, vy := JUMP_VELOCITY }

/-- The function `createPlatform`, the draw `Math.random()` being the argument `r`. -/
def createPlatform (W : ℚ) (r : ℚ) (y : ℚ) : Platform :=
  { x := r * (W - PLATFORM_W), y := y, w := PLATFORM_W, h := PLATFORM_H,
    type := PlatformType.normal }

/-- The `for` loop of `resetPlatforms` with `n` iterations left: iteration number `j`
(counted from 0) pushes `createPlatform(y)`, reading draw `k`, then lowers `y` by
`60 + Math.random() * 40`, reading draw `k + 1`. -/
def resetPlatformsLoop (W : ℚ) (rnd : ℕ → ℚ) : ℕ → ℕ → ℚ → List Platform
  | 0, _, _ => []
  | n + 1, k, y =>
    createPlatform W (rnd k) y ::
      resetPlatformsLoop W rnd n (k + 2) (y - (60 + rnd (k + 1) * 40))

/-- The function `resetPlatforms`: the new array. Draw 0 places the base platform; the loop
runs for `i = 1, ..., PLATFORM_COUNT - 1` and reads the draws 1, 2, ... -/
def resetPlatforms (W H : ℚ) (rnd : ℕ → ℚ) : List Platform :=
  let baseY := H - 40
  createPlatform W (rnd 0) baseY ::
    resetPlatformsLoop W rnd (PLATFORM_COUNT - 1) 1 (baseY - 60)

/-! ## Commands (lines 131-181) -/

/-- The function `startRound`. `bet` is `Number(ui.betInput.value)`, `none` when it is not
finite. Draw 0 of `rnd` is read by `sampleCrashMultiplier`, the following ones by
`resetPlatforms`. -/
def startRound (W H : ℚ) (bet : Option ℚ) (rnd : ℕ → ℚ) (e : Engine) : Engine :=
  match bet with
  | none => e
  | some b =>
    if b ≤ 0 then e
    else if b > e.state.balance then e
    else
      { state :=
          { e.state with
            balance := e.state.balance - b
            bet := b
            mode := Mode.playing
            multiplier := 1
            heightClimbed := 0
            crashMult := sampleCrashMultiplier (rnd 0)
            crashArmed := false
            lossSoundPlayed := false }
        player := resetPlayer W H
        platforms := resetPlatforms W H (fun n => rnd (n + 1)) }

/-- The text `startRound` hands to `setMessage`, by the same tests as `startRound`. -/
def startRoundMessage (bet : Option ℚ) (s : State) : String :=
  match bet with
  | none => "Enter a valid bet."
  | some b =>
    if b ≤ 0 then "Enter a valid bet."
    else if b > s.balance then "Bet exceeds balance."
    else "Round started. Climb and cash out!"

/-- The function `cashout`. -/
def cashout (e : Engine) : Engine :=
  if e.state.mode ≠ Mode.playing ∨ e.state.crashArmed = true then e
  else
    let payout := e.state.bet * e.state.multiplier
    { e with state := { e.state with balance := e.state.balance + payout, mode := Mode.ended } }

/-- The function `endRoundLoss`. -/
def endRoundLoss (e : Engine) : Engine :=
  { e with state := { e.state with lossSoundPlayed := true, mode := Mode.ended } }

/-! ## Platform recycling (lines 183-194) -/

/-- The value of `Math.min` over the `y` of a non-empty array of platforms. -/
def minY (p : Platform) (ps : List Platform) : ℚ :=
  ps.foldl (fun m q => min m q.y) p.y

/-- The `for` loop of `updatePlatforms`: `k` is the number of draws read so far and
`topMost` the running local variable. -/
def updatePlatformsLoop (W H : ℚ) (rnd : ℕ → ℚ) : ℕ → ℚ → List Platform → List Platform
  | _, _, [] => []
  | k, topMost, p :: ps =>
    if p.y > H + 60 then
      let gap := 60 + rnd k * 40
      let y := topMost - gap
      { p with y := y, x := rnd (k + 1) * (W - PLATFORM_W), type := PlatformType.normal } ::
        updatePlatformsLoop W H rnd (k + 2) y ps
    else
      p :: updatePlatformsLoop W H rnd k topMost ps

/-- The function `updatePlatforms`. On the empty array `Math.min()` is `Infinity`, but the
loop body never runs, so the value is never read. -/
def updatePlatforms (W H : ℚ) (rnd : ℕ → ℚ) (platforms : List Platform) : List Platform :=
  match platforms with
  | [] => []
  | p :: ps => updatePlatformsLoop W H rnd 0 (minY p ps) (p :: ps)

/-! ## Collision (lines 196-223) -/

/-- The `for` loop of `handleCollision` over the remaining platforms: the first platform
that passes both tests is handled and the loop stops. -/
def handleCollisionLoop (prevY : ℚ) (s : State) (pl : Player) :
    List Platform → State × Player × List Platform
  | [] => (s, pl, [])
  | p :: ps =>
    let withinX : Bool := decide (pl.x + PLAYER_W > p.x) && decide (pl.x < p.x + p.w)
    let crossedY : Bool := decide (prevY + PLAYER_H ≤ p.y) && decide (pl.y + PLAYER_H ≥ p.y)
    if (withinX && crossedY) = true then
      if s.crashArmed = true then
        ({ s with mode := Mode.crashing, lossSoundPlayed := true },
         { pl with vy := 2 },
         { p with type := PlatformType.break_ } :: ps)
      else
        (s, { pl with vy := JUMP_VELOCITY }, p :: ps)
    else
      let r := handleCollisionLoop prevY s pl ps
      (r.1, r.2.1, p :: r.2.2)

/-- The function `handleCollision`. -/
def handleCollision (prevY : ℚ) (e : Engine) : Engine :=
  if e.state.mode ≠ Mode.playing ∨ e.player.vy ≤ 0 then e
  else
    let r := handleCollisionLoop prevY e.state e.player e.platforms
    { state := r.1, player := r.2.1, platforms := r.2.2 }

/-! ## The tick (lines 225-274) -/

/-- Lines 230-246 of `updateState`: horizontal move with wrap, then gravity. -/
def movePlayer (W : ℚ) (delta : ℚ) (keys : Keys) (pl : Player) : Player :=
  let frameScale := delta / (1667 / 100)
  let vx := if keys.left = true then -MOVE_SPEED else if keys.right = true then MOVE_SPEED else 0
  let x0 := pl.x + vx * frameScale
  let x1 := if x0 > W then -PLAYER_W else x0
  let x2 := if x1 < -PLAYER_W then W else x1
  let vy := pl.vy + GRAVITY * frameScale
  let y := pl.y + vy * frameScale
  { x := x2, y := y, vx := vx, vy := vy }

/-- Lines 248-264 of `updateState`: camera scroll, multiplier and arming, run only in
playing mode. -/
def scrollAndArm (H : ℚ) (e : Engine) : Engine :=
  if e.state.mode = Mode.playing then
    let targetY := H * (3 / 10)
    let e1 : Engine :=
      if e.player.y < targetY ∧ e.player.vy < 0 then
        let shift := targetY - e.player.y
        { state := { e.state with heightClimbed := e.state.heightClimbed + shift }
          player := { e.player with y := targetY }
          platforms := e.platforms.map (fun p => { p with y := p.y + shift }) }
      else e
    let m := 1 + e1.state.heightClimbed / HEIGHT_PER_MULT
    let s2 : State := { e1.state with multiplier := m }
    let s3 : State :=
      if s2.crashArmed = false ∧ s2.multiplier ≥ s2.crashMult then { s2 with crashArmed := true }
      else s2
    { e1 with state := s3 }
  else e

/-- The function `updateState`, with `keys` and the draws of `updatePlatforms` as
arguments. -/
def updateState (W H : ℚ) (delta : ℚ) (keys : Keys) (rnd : ℕ → ℚ) (e : Engine) : Engine :=
  if e.state.mode ≠ Mode.playing ∧ e.state.mode ≠ Mode.crashing then e
  else
    let prevY := e.player.y
    let e1 : Engine := { e with player := movePlayer W delta keys e.player }
    let e2 := scrollAndArm H e1
    let e3 := handleCollision prevY e2
    let e4 : Engine := { e3 with platforms := updatePlatforms W H rnd e3.platforms }
    if e4.player.y > H + 80 then endRoundLoss e4 else e4

/-- One frame of input: the elapsed time, the keys held, and the draws of the frame. -/
structure Frame where
  delta : ℚ
  keys : Keys
  rnd : ℕ → ℚ

/-- A sequence of ticks, one per frame, oldest first. -/
def runTicks (W H : ℚ) (frames : List Frame) (e : Engine) : Engine :=
  frames.foldl (fun acc f => updateState W H f.delta f.keys f.rnd acc) e

/-! ## Example inputs -/

/-- A round in progress on a 400 x 600 canvas: 50 staked out of 1000, 300 climbed, the
crash multiplier 4 not reached yet. -/
def playingEngine : Engine where
  state :=
    { mode := Mode.playing
      balance := 950
      bet := 50
      multiplier := 5 / 2
      heightClimbed := 300
      crashMult := 4
      crashArmed := false
      lossSoundPlayed := false }
  player := { x := 185, y := 300, vx := 0, vy := -5 }
  platforms :=
    [ { x := 100, y := 560, w := PLATFORM_W, h := PLATFORM_H, type := PlatformType.normal },
      { x := 200, y := 480, w := PLATFORM_W, h := PLATFORM_H, type := PlatformType.normal } ]

/-- A stream of draws that always yields one half. -/
def halfDraws : ℕ → ℚ := fun _ => 1 / 2

/-- A frame of 16.67 ms with no key held. -/
def stillFrame : Frame where
  delta := 1667 / 100
  keys := { left := false, right := false }
  rnd := halfDraws

/-- The round of `playingEngine` once the crash multiplier 2 has been reached: the crash is
armed. -/
def armedEngine : Engine :=
  { playingEngine with
    state := { playingEngine.state with crashMult := 2, crashArmed := true } }

/-- The engine after a bet of 50 from the initial state on a 400 x 600 canvas. -/
def startedEngine : Engine :=
  startRound 400 600 (some 50) halfDraws (initialEngine 400 600)

/-! ## Auxiliary predicates -/

/-- Two states differ at most in `mode` and `lossSoundPlayed`. -/
def SameRound (s t : State) : Prop :=
  t.balance = s.balance ∧ t.bet = s.bet ∧ t.multiplier = s.multiplier ∧
  t.heightClimbed = s.heightClimbed ∧ t.crashMult = s.crashMult ∧
  t.crashArmed = s.crashArmed

/-- The multiplier is the one derived from the climbed height, and the crash is armed
exactly when that multiplier has reached the crash multiplier. -/
def RoundInv (s : State) : Prop :=
  s.multiplier = 1 + s.heightClimbed / HEIGHT_PER_MULT ∧
  (s.crashArmed = true ↔ s.crashMult ≤ s.multiplier)

/-! ## Stages of the tick -/

/-- The two tests of `handleCollision` on one platform (lines 201-205):
`withinX && crossedY`. -/
def landsOn (prevY : ℚ) (pl : Player) (p : Platform) : Bool :=
  (decide (pl.x + PLAYER_W > p.x) && decide (pl.x < p.x + p.w)) &&
    (decide (prevY + PLAYER_H ≤ p.y) && decide (pl.y + PLAYER_H ≥ p.y))

/-- The engine after lines 230-246 of `updateState` (move and gravity). -/
def afterMove (W delta : ℚ) (keys : Keys) (e : Engine) : Engine :=
  { e with player := movePlayer W delta keys e.player }

/-- The engine after lines 248-264 of `updateState` (scroll, multiplier, arming). -/
def afterScroll (W H delta : ℚ) (keys : Keys) (e : Engine) : Engine :=
  scrollAndArm H (afterMove W delta keys e)

/-- The engine after line 266 of `updateState`, the call `handleCollision(prevY)`. -/
def afterCollision (W H delta : ℚ) (keys : Keys) (e : Engine) : Engine :=
  handleCollision e.player.y (afterScroll W H delta keys e)

/-- A round with the crash armed in which the player, falling, has just crossed the top of
the second platform: the engine as `handleCollision(300)` finds it. -/
def landingEngine : Engine where
  state :=
    { mode := Mode.playing
      balance := 950
      bet := 50
      multiplier := 2
      heightClimbed := 200
      crashMult := 2
      crashArmed := true
      lossSoundPlayed := false }
  player := { x := 185, y := 306, vx := 0, vy := 5 }
  platforms :=
    [ { x := 0, y := 500, w := PLATFORM_W, h := PLATFORM_H, type := PlatformType.normal },
      { x := 170, y := 336, w := PLATFORM_W, h := PLATFORM_H, type := PlatformType.normal } ]

/-! ## Runs of the engine -/

/-- The engine once the script has run to its end: the state of line 36, the player of
`resetPlayer()` and the platforms of `resetPlatforms()` (lines 511-512). -/
def loadedEngine (W H : ℚ) (rnd : ℕ → ℚ) : Engine where
  state := (initialEngine W H).state
  player := resetPlayer W H
  platforms := resetPlatforms W H rnd

/-- One event of a run: a call of `startRound` with the bet read from the input and the
draws it consumes, a call of `cashout`, or a tick. -/
inductive Action where
  | start (bet : Option ℚ) (rnd : ℕ → ℚ)
  | cash
  | tick (f : Frame)

/-- The effect of one event. `start` calls `startRound` whatever the mode, which covers the
clicks that the start button lets through. -/
def step (W H : ℚ) (e : Engine) : Action → Engine
  | Action.start bet rnd => startRound W H bet rnd e
  | Action.cash => cashout e
  | Action.tick f => updateState W H f.delta f.keys f.rnd e

/-- A run: the events applied in order, oldest first. -/
def runActions (W H : ℚ) (actions : List Action) (e : Engine) : Engine :=
  actions.foldl (step W H) e

/-- The invariant of the economy: balance, bet and climbed height are non-negative, the
multiplier is at least 1, and while a round is running the bet is positive and `RoundInv`
holds. -/
def EconInv (s : State) : Prop :=
  0 ≤ s.balance ∧ 0 ≤ s.bet ∧ 0 ≤ s.heightClimbed ∧ 1 ≤ s.multiplier ∧
  ((s.mode = Mode.playing ∨ s.mode = Mode.crashing) → 0 < s.bet ∧ RoundInv s)

/-! ## Further example inputs -/

/-- The playing example with the player 5 beyond the right edge of a 400 wide canvas. -/
def offRightEngine : Engine :=
  { playingEngine with player := { x := 405, y := 300, vx := 0, vy := -5 } }

/-- The playing example with the player rising just below the scroll line `0.3 * 600`. -/
def scrollingEngine : Engine :=
  { playingEngine with player := { x := 185, y := 182, vx := 0, vy := -5 } }

/-- A round, crash not armed, in which the falling player is about to cross the top of the
second platform (bottom edge at 334, platform top at 336). -/
def fallingEngine : Engine where
  state := playingEngine.state
  player := { x := 185, y := 300, vx := 0, vy := 5 }
  platforms :=
    [ { x := 0, y := 500, w := PLATFORM_W, h := PLATFORM_H, type := PlatformType.normal },
      { x := 170, y := 336, w := PLATFORM_W, h := PLATFORM_H, type := PlatformType.normal } ]

/-- The same position in crashing mode, the crash armed. -/
def crashingEngine : Engine :=
  { fallingEngine with
    state :=
      { fallingEngine.state with
        mode := Mode.crashing, crashMult := 2, crashArmed := true, lossSoundPlayed := true } }

/-! ## The top of the field -/

/-- The height `t` is the smallest `y` among the platforms of `l`. -/
def IsTopMost (t : ℚ) (l : List Platform) : Prop :=
  (∃ q ∈ l, q.y = t) ∧ ∀ q ∈ l, t ≤ q.y

/-- The platform `p1` is `p` recycled: placed `gap` above the top `t` of `field`, with
`60 ≤ gap < 100`, strictly above every platform of `orig`, at an `x` in `[0, W - PLATFORM_W)`,
of type normal, with the size of `p`. -/
def RecycledFrom (W : ℚ) (orig field : List Platform) (p p1 : Platform) : Prop :=
  ∃ t gap : ℚ, IsTopMost t field ∧ 60 ≤ gap ∧ gap < 100 ∧ p1.y = t - gap ∧
    (∀ q ∈ orig, p1.y < q.y) ∧ 0 ≤ p1.x ∧ p1.x < W - PLATFORM_W ∧
    p1.type = PlatformType.normal ∧ p1.w = p.w ∧ p1.h = p.h

/-- A field on a 600 high canvas whose first platform has scrolled below `H + 60`. -/
def recycleField : List Platform :=
  [ { x := 10, y := 700, w := PLATFORM_W, h := PLATFORM_H, type := PlatformType.break_ },
    { x := 200, y := 100, w := PLATFORM_W, h := PLATFORM_H, type := PlatformType.normal },
    { x := 120, y := 50, w := PLATFORM_W, h := PLATFORM_H, type := PlatformType.normal } ]

/-! ## Binary64 arithmetic -/

/-- The exponent of `x ≥ 1` found by halving, with `n` halvings left. -/
def binadeUp : ℕ → ℚ → ℤ
  | 0, _ => 0
  | n + 1, x => if x < 2 then 0 else binadeUp n (x / 2) + 1

/-- The exponent of `0 < x < 1` found by doubling, with `n` doublings left. -/
def binadeDown : ℕ → ℚ → ℤ
  | 0, _ => 0
  | n + 1, x => if 1 ≤ x then 0 else binadeDown n (x * 2) - 1

/-- The binary64 exponent of `x ≠ 0`: the `e` with `2 ^ e ≤ |x| < 2 ^ (e + 1)`, and `-1022`
for the smaller (subnormal) values. -/
def binade (x : ℚ) : ℤ :=
  if 1 ≤ |x| then binadeUp 1023 |x| else binadeDown 1022 |x|

/-- The nearest integer, a tie going to the even one. -/
def roundHalfEven (q : ℚ) : ℤ :=
  if q - ⌊q⌋ < 1 / 2 then ⌊q⌋
  else if 1 / 2 < q - ⌊q⌋ then ⌊q⌋ + 1
  else if ⌊q⌋ % 2 = 0 then ⌊q⌋ else ⌊q⌋ + 1

/-- The binary64 number nearest to `x`, ties to even: the result of every arithmetic
operation of the program on the exact result `x`, for `|x| < 2 ^ 1024`. The grid around `x`
has the step `2 ^ (binade x - 52)`. -/
def roundToDouble (x : ℚ) : ℚ :=
  if x = 0 then 0
  else roundHalfEven (x / 2 ^ (binade x - 52)) * 2 ^ (binade x - 52)

/-- The loop of lines 253-255 as the program runs it: each `platform.y += shift` is a
binary64 sum. -/
def scrollPlatformsDouble (shift : ℚ) (platforms : List Platform) : List Platform :=
  platforms.map (fun p => { p with y := roundToDouble (p.y + shift) })

/-- The expression `60 + Math.random() * 40` of line 187 as the program computes it, `r`
being the draw: a binary64 product, then a binary64 sum. -/
def gapDouble (r : ℚ) : ℚ :=
  roundToDouble (60 + roundToDouble (r * 40))

/-- The `for` loop of `updatePlatforms` as the program runs it: as `updatePlatformsLoop`,
with every sum, difference and product rounded to binary64. -/
def updatePlatformsLoopDouble (W H : ℚ) (rnd : ℕ → ℚ) :
    ℕ → ℚ → List Platform → List Platform
  | _, _, [] => []
  | k, topMost, p :: ps =>
    if p.y > roundToDouble (H + 60) then
      let gap := gapDouble (rnd k)
      let y := roundToDouble (topMost - gap)
      { p with y := y, x := roundToDouble (rnd (k + 1) * roundToDouble (W - PLATFORM_W)),
               type := PlatformType.normal } ::
        updatePlatformsLoopDouble W H rnd (k + 2) y ps
    else
      p :: updatePlatformsLoopDouble W H rnd k topMost ps

/-- The function `updatePlatforms` as the program runs it. -/
def updatePlatformsDouble (W H : ℚ) (rnd : ℕ → ℚ) (platforms : List Platform) :
    List Platform :=
  match platforms with
  | [] => []
  | p :: ps => updatePlatformsLoopDouble W H rnd 0 (minY p ps) (p :: ps)

/-- The largest draw of `Math.random()`: the binary64 number just below 1. -/
def maxDraws : ℕ → ℚ := fun _ => 1 - 1 / 2 ^ 53

/-- Two platforms 60 apart. -/
def scrollPair : List Platform :=
  [ { x := 100, y := 560, w := PLATFORM_W, h := PLATFORM_H, type := PlatformType.normal },
    { x := 200, y := 500, w := PLATFORM_W, h := PLATFORM_H, type := PlatformType.normal } ]

/-- The shift `180 - y1` of a tick on a 600 high canvas in which the player has reached
`y1`, the binary64 number nearest to 179.7. -/
def scrollShift : ℚ := 180 - 3161315832181555 / 2 ^ 44

/-! ## Lemmas on the sampling law -/

lemma sampleCrashMultiplier_ge (r : ℚ) : 101 / 100 ≤ sampleCrashMultiplier r := by
  unfold sampleCrashMultiplier
  exact le_max_left _ _

lemma sampleCrashMultiplier_le (r : ℚ) : sampleCrashMultiplier r ≤ 960000 := by
  unfold sampleCrashMultiplier
  have hpos : (0 : ℚ) < max r (1 / 1000000) := lt_of_lt_of_le (by norm_num) (le_max_right _ _)
  have hge : (1 / 1000000 : ℚ) ≤ max r (1 / 1000000) := le_max_right _ _
  apply max_le
  · norm_num
  · rw [div_le_iff₀ hpos]
    linarith

/-! ## Lemmas on the reset of the platform field -/

lemma resetPlatformsLoop_length (W : ℚ) (rnd : ℕ → ℚ) (n k : ℕ) (y : ℚ) :
    (resetPlatformsLoop W rnd n k y).length = n := by
  induction n generalizing k y with
  | zero => rfl
  | succ n ih => simp [resetPlatformsLoop, ih]

lemma resetPlatformsLoop_normal (W : ℚ) (rnd : ℕ → ℚ) (n k : ℕ) (y : ℚ) :
    ∀ p ∈ resetPlatformsLoop W rnd n k y, p.type = PlatformType.normal := by
  induction n generalizing k y with
  | zero => intro p hp; simp [resetPlatformsLoop] at hp
  | succ n ih =>
    intro p hp
    simp only [resetPlatformsLoop, List.mem_cons] at hp
    rcases hp with rfl | hp
    · rfl
    · exact ih _ _ p hp

lemma resetPlatforms_length (W H : ℚ) (rnd : ℕ → ℚ) :
    (resetPlatforms W H rnd).length = PLATFORM_COUNT := by
  simp [resetPlatforms, resetPlatformsLoop_length, PLATFORM_COUNT]

lemma resetPlatforms_normal (W H : ℚ) (rnd : ℕ → ℚ) :
    ∀ p ∈ resetPlatforms W H rnd, p.type = PlatformType.normal := by
  intro p hp
  simp only [resetPlatforms, List.mem_cons] at hp
  rcases hp with rfl | hp
  · rfl
  · exact resetPlatformsLoop_normal _ _ _ _ _ p hp

/-! ## Lemmas on `startRound` -/

lemma startRound_accepted (W H : ℚ) (rnd : ℕ → ℚ) (e : Engine) (b : ℚ)
    (hpos : 0 < b) (hle : b ≤ e.state.balance) :
    startRound W H (some b) rnd e =
      { state :=
          { e.state with
            balance := e.state.balance - b
            bet := b
            mode := Mode.playing
            multiplier := 1
            heightClimbed := 0
            crashMult := sampleCrashMultiplier (rnd 0)
            crashArmed := false
            lossSoundPlayed := false }
        player := resetPlayer W H
        platforms := resetPlatforms W H (fun n => rnd (n + 1)) } := by
  simp only [startRound]
  rw [if_neg (not_le.mpr hpos), if_neg (not_lt.mpr hle)]

/-! ## Lemmas on the tick -/

lemma SameRound.refl (s : State) : SameRound s s := ⟨rfl, rfl, rfl, rfl, rfl, rfl⟩

lemma SameRound.trans {s t u : State} (h1 : SameRound s t) (h2 : SameRound t u) :
    SameRound s u := by
  obtain ⟨a1, a2, a3, a4, a5, a6⟩ := h1
  obtain ⟨b1, b2, b3, b4, b5, b6⟩ := h2
  exact ⟨b1.trans a1, b2.trans a2, b3.trans a3, b4.trans a4, b5.trans a5, b6.trans a6⟩

lemma handleCollisionLoop_state (prevY : ℚ) (s : State) (pl : Player) (ps : List Platform) :
    (handleCollisionLoop prevY s pl ps).1 = s ∨
    (s.crashArmed = true ∧
      (handleCollisionLoop prevY s pl ps).1
        = { s with mode := Mode.crashing, lossSoundPlayed := true }) := by
  induction ps with
  | nil => exact Or.inl rfl
  | cons p ps ih =>
    simp only [handleCollisionLoop]
    split_ifs with h1 h2
    · exact Or.inr ⟨h2, rfl⟩
    · exact Or.inl rfl
    · exact ih

lemma handleCollision_state (prevY : ℚ) (e : Engine) :
    (handleCollision prevY e).state = e.state ∨
    (e.state.mode = Mode.playing ∧ e.state.crashArmed = true ∧
      (handleCollision prevY e).state
        = { e.state with mode := Mode.crashing, lossSoundPlayed := true }) := by
  unfold handleCollision
  split_ifs with h
  · exact Or.inl rfl
  · have hm : e.state.mode = Mode.playing := by
      by_contra hne
      exact h (Or.inl hne)
    rcases handleCollisionLoop_state prevY e.state e.player e.platforms with h1 | ⟨ha, h1⟩
    · exact Or.inl h1
    · exact Or.inr ⟨hm, ha, h1⟩

lemma handleCollision_sameRound (prevY : ℚ) (e : Engine) :
    SameRound e.state (handleCollision prevY e).state := by
  rcases handleCollision_state prevY e with h | ⟨_, _, h⟩
  · rw [h]; exact SameRound.refl _
  · rw [h]; exact ⟨rfl, rfl, rfl, rfl, rfl, rfl⟩

lemma scrollAndArm_not_playing (H : ℚ) (e : Engine) (hm : e.state.mode ≠ Mode.playing) :
    scrollAndArm H e = e := by
  unfold scrollAndArm
  rw [if_neg hm]

/-- In playing mode the state after the scroll and arming step: the climbed height grows by
a non-negative shift, the multiplier is recomputed from it, and the flag is raised when the
new multiplier has reached the crash multiplier. -/
lemma scrollAndArm_playing_state (H : ℚ) (e : Engine) (hm : e.state.mode = Mode.playing) :
    ∃ shift : ℚ, 0 ≤ shift ∧
      (scrollAndArm H e).state =
        { e.state with
          heightClimbed := e.state.heightClimbed + shift
          multiplier := 1 + (e.state.heightClimbed + shift) / HEIGHT_PER_MULT
          crashArmed := e.state.crashArmed ||
            decide (e.state.crashMult ≤ 1 + (e.state.heightClimbed + shift) / HEIGHT_PER_MULT) } := by
  unfold scrollAndArm
  rw [if_pos hm]
  by_cases hs : e.player.y < H * (3 / 10) ∧ e.player.vy < 0
  · refine ⟨H * (3 / 10) - e.player.y, by linarith [hs.1], ?_⟩
    simp only [if_pos hs]
    cases ha : e.state.crashArmed <;> by_cases hc :
      e.state.crashMult ≤ 1 + (e.state.heightClimbed + (H * (3 / 10) - e.player.y)) / HEIGHT_PER_MULT
      <;> simp [ha, hc]
  · refine ⟨0, le_rfl, ?_⟩
    simp only [if_neg hs, add_zero]
    cases ha : e.state.crashArmed <;> by_cases hc :
      e.state.crashMult ≤ 1 + e.state.heightClimbed / HEIGHT_PER_MULT
      <;> simp [ha, hc]

lemma updateState_inactive (W H delta : ℚ) (keys : Keys) (rnd : ℕ → ℚ) (e : Engine)
    (h : e.state.mode ≠ Mode.playing ∧ e.state.mode ≠ Mode.crashing) :
    updateState W H delta keys rnd e = e := by
  unfold updateState
  rw [if_pos h]

/-- After the scroll and arming step the tick changes at most `mode` and
`lossSoundPlayed`. -/
lemma updateState_sameRound (W H delta : ℚ) (keys : Keys) (rnd : ℕ → ℚ) (e : Engine)
    (h : ¬ (e.state.mode ≠ Mode.playing ∧ e.state.mode ≠ Mode.crashing)) :
    SameRound (scrollAndArm H { e with player := movePlayer W delta keys e.player }).state
      (updateState W H delta keys rnd e).state := by
  unfold updateState
  rw [if_neg h]
  simp only []
  split_ifs with hy
  · exact SameRound.trans (handleCollision_sameRound _ _) ⟨rfl, rfl, rfl, rfl, rfl, rfl⟩
  · exact handleCollision_sameRound _ _

lemma updateState_balance (W H delta : ℚ) (keys : Keys) (rnd : ℕ → ℚ) (e : Engine) :
    (updateState W H delta keys rnd e).state.balance = e.state.balance ∧
    (updateState W H delta keys rnd e).state.bet = e.state.bet ∧
    (updateState W H delta keys rnd e).state.crashMult = e.state.crashMult := by
  by_cases h : e.state.mode ≠ Mode.playing ∧ e.state.mode ≠ Mode.crashing
  · rw [updateState_inactive W H delta keys rnd e h]
    exact ⟨rfl, rfl, rfl⟩
  · obtain ⟨h1, h2, _, _, h5, _⟩ := updateState_sameRound W H delta keys rnd e h
    rw [h1, h2, h5]
    by_cases hm : e.state.mode = Mode.playing
    · obtain ⟨shift, _, hs⟩ := scrollAndArm_playing_state H
        { e with player := movePlayer W delta keys e.player } hm
      rw [hs]
      exact ⟨rfl, rfl, rfl⟩
    · rw [scrollAndArm_not_playing H { e with player := movePlayer W delta keys e.player } hm]
      exact ⟨rfl, rfl, rfl⟩

lemma runTicks_balance (W H : ℚ) (frames : List Frame) (e : Engine) :
    (runTicks W H frames e).state.balance = e.state.balance ∧
    (runTicks W H frames e).state.bet = e.state.bet ∧
    (runTicks W H frames e).state.crashMult = e.state.crashMult := by
  induction frames generalizing e with
  | nil => exact ⟨rfl, rfl, rfl⟩
  | cons f fs ih =>
    have h := updateState_balance W H f.delta f.keys f.rnd e
    have h2 := ih (updateState W H f.delta f.keys f.rnd e)
    simp only [runTicks, List.foldl_cons] at h2 ⊢
    exact ⟨h2.1.trans h.1, h2.2.1.trans h.2.1, h2.2.2.trans h.2.2⟩

lemma updateState_crashArmed (W H delta : ℚ) (keys : Keys) (rnd : ℕ → ℚ) (e : Engine)
    (ha : e.state.crashArmed = true) :
    (updateState W H delta keys rnd e).state.crashArmed = true := by
  by_cases h : e.state.mode ≠ Mode.playing ∧ e.state.mode ≠ Mode.crashing
  · rw [updateState_inactive W H delta keys rnd e h]
    exact ha
  · obtain ⟨_, _, _, _, _, h6⟩ := updateState_sameRound W H delta keys rnd e h
    rw [h6]
    by_cases hm : e.state.mode = Mode.playing
    · obtain ⟨shift, _, hs⟩ := scrollAndArm_playing_state H
        { e with player := movePlayer W delta keys e.player } hm
      rw [hs]
      simp [ha]
    · rw [scrollAndArm_not_playing H { e with player := movePlayer W delta keys e.player } hm]
      exact ha

lemma updateState_roundInv (W H delta : ℚ) (keys : Keys) (rnd : ℕ → ℚ) (e : Engine)
    (hi : RoundInv e.state) : RoundInv (updateState W H delta keys rnd e).state := by
  by_cases h : e.state.mode ≠ Mode.playing ∧ e.state.mode ≠ Mode.crashing
  · rw [updateState_inactive W H delta keys rnd e h]
    exact hi
  · obtain ⟨_, _, h3, h4, h5, h6⟩ := updateState_sameRound W H delta keys rnd e h
    unfold RoundInv
    rw [h3, h4, h5, h6]
    by_cases hm : e.state.mode = Mode.playing
    · obtain ⟨shift, hshift, hs⟩ := scrollAndArm_playing_state H
        { e with player := movePlayer W delta keys e.player } hm
      rw [hs]
      refine ⟨rfl, ?_⟩
      obtain ⟨hmul, harm⟩ := hi
      simp only [Bool.or_eq_true, decide_eq_true_eq]
      constructor
      · rintro (ha | hc)
        · have h1 := harm.mp ha
          rw [hmul] at h1
          have h200 : (0 : ℚ) < HEIGHT_PER_MULT := by norm_num [HEIGHT_PER_MULT]
          have : e.state.heightClimbed / HEIGHT_PER_MULT
              ≤ (e.state.heightClimbed + shift) / HEIGHT_PER_MULT :=
            div_le_div_of_nonneg_right (by linarith) (le_of_lt h200)
          linarith
        · exact hc
      · intro hc
        exact Or.inr hc
    · rw [scrollAndArm_not_playing H { e with player := movePlayer W delta keys e.player } hm]
      exact hi

lemma runTicks_roundInv (W H : ℚ) (frames : List Frame) (e : Engine)
    (hi : RoundInv e.state) : RoundInv (runTicks W H frames e).state := by
  induction frames generalizing e with
  | nil => exact hi
  | cons f fs ih =>
    simp only [runTicks, List.foldl_cons]
    exact ih _ (updateState_roundInv W H f.delta f.keys f.rnd e hi)

lemma startRound_roundInv (W H : ℚ) (rnd : ℕ → ℚ) (e : Engine) (b : ℚ)
    (hpos : 0 < b) (hle : b ≤ e.state.balance) :
    RoundInv (startRound W H (some b) rnd e).state := by
  rw [startRound_accepted W H rnd e b hpos hle]
  refine ⟨by simp, ?_⟩
  have h := sampleCrashMultiplier_ge (rnd 0)
  constructor
  · intro hf
    simp at hf
  · intro hc
    simp only at hc
    linarith

/-! ## Claims on the commands -/

/-- C1: in playing mode with the crash not armed, `cashout` adds `bet * multiplier` to the
balance and sets the mode to ended; the bet, the multiplier, the climbed height, the crash
multiplier, both flags, the player and the platforms are unchanged. -/
theorem cashout_pays (e : Engine) (hm : e.state.mode = Mode.playing)
    (ha : e.state.crashArmed = false) :
    (cashout e).state.balance = e.state.balance + e.state.bet * e.state.multiplier ∧
    (cashout e).state.mode = Mode.ended ∧
    (cashout e).state.bet = e.state.bet ∧
    (cashout e).state.multiplier = e.state.multiplier ∧
    (cashout e).state.heightClimbed = e.state.heightClimbed ∧
    (cashout e).state.crashMult = e.state.crashMult ∧
    (cashout e).state.crashArmed = e.state.crashArmed ∧
    (cashout e).state.lossSoundPlayed = e.state.lossSoundPlayed ∧
    (cashout e).player = e.player ∧
    (cashout e).platforms = e.platforms := by
  simp [cashout, hm, ha]

/-- Witness of C1: with balance 950, bet 50 and multiplier 2.5 the balance after `cashout`
is 1075 and the mode is ended. -/
theorem cashout_pays_witness :
    playingEngine.state.balance = 950 ∧ playingEngine.state.bet = 50 ∧
    playingEngine.state.multiplier = 5 / 2 ∧
    (cashout playingEngine).state.balance = 1075 ∧
    (cashout playingEngine).state.mode = Mode.ended := by
  have h := cashout_pays playingEngine rfl rfl
  refine ⟨rfl, rfl, rfl, ?_, h.2.1⟩
  rw [h.1]
  norm_num [playingEngine]

/-- C2: for a finite bet `b` with `0 < b ≤ balance`, `startRound` deducts `b`, records it as
the bet, sets mode playing, multiplier 1, climbed height 0, both flags false, the crash
multiplier to a fresh draw of the sampling law (at least 1.01), the player to
`(W/2 - PLAYER_W/2, H - 80)` with `vx = 0` and `vy = JUMP_VELOCITY = -10`, and the platforms
to a regenerated field of 12 platforms, all normal. -/
theorem startRound_accepts (W H : ℚ) (rnd : ℕ → ℚ) (e : Engine) (b : ℚ)
    (hpos : 0 < b) (hle : b ≤ e.state.balance) :
    (startRound W H (some b) rnd e).state.balance = e.state.balance - b ∧
    (startRound W H (some b) rnd e).state.bet = b ∧
    (startRound W H (some b) rnd e).state.mode = Mode.playing ∧
    (startRound W H (some b) rnd e).state.multiplier = 1 ∧
    (startRound W H (some b) rnd e).state.heightClimbed = 0 ∧
    (startRound W H (some b) rnd e).state.crashArmed = false ∧
    (startRound W H (some b) rnd e).state.lossSoundPlayed = false ∧
    (startRound W H (some b) rnd e).state.crashMult = sampleCrashMultiplier (rnd 0) ∧
    101 / 100 ≤ (startRound W H (some b) rnd e).state.crashMult ∧
    (startRound W H (some b) rnd e).player =
      { x := W / 2 - PLAYER_W / 2, y := H - 80, vx := 0, vy := JUMP_VELOCITY } ∧
    JUMP_VELOCITY = -10 ∧
    (startRound W H (some b) rnd e).platforms = resetPlatforms W H (fun n => rnd (n + 1)) ∧
    (startRound W H (some b) rnd e).platforms.length = 12 ∧
    (∀ p ∈ (startRound W H (some b) rnd e).platforms, p.type = PlatformType.normal) ∧
    startRoundMessage (some b) e.state = "Round started. Climb and cash out!" := by
  rw [startRound_accepted W H rnd e b hpos hle]
  refine ⟨rfl, rfl, rfl, rfl, rfl, rfl, rfl, rfl, sampleCrashMultiplier_ge _, rfl, rfl, rfl,
    resetPlatforms_length _ _ _, resetPlatforms_normal W H (fun n => rnd (n + 1)), ?_⟩
  simp only [startRoundMessage]
  rw [if_neg (not_le.mpr hpos), if_neg (not_lt.mpr hle)]

/-- Witness of C2: a bet of 50 out of the starting balance 1000 leaves 950. -/
theorem startRound_accepts_witness :
    (0 : ℚ) < 50 ∧ (50 : ℚ) ≤ (initialEngine 400 600).state.balance ∧
    (startRound 400 600 (some 50) halfDraws (initialEngine 400 600)).state.balance = 950 ∧
    (startRound 400 600 (some 50) halfDraws (initialEngine 400 600)).state.mode
      = Mode.playing := by
  have hle : (50 : ℚ) ≤ (initialEngine 400 600).state.balance := by
    norm_num [initialEngine, START_BALANCE]
  have h := startRound_accepts 400 600 halfDraws (initialEngine 400 600) 50 (by norm_num) hle
  refine ⟨by norm_num, hle, ?_, h.2.2.1⟩
  rw [h.1]
  norm_num [initialEngine, START_BALANCE]

/-- C3: a bet that is not finite, is at most 0, or exceeds the balance is rejected by
`startRound`: the engine (state, player, platforms) is returned unchanged and the message is
one of the two validation messages. -/
theorem startRound_rejects (W H : ℚ) (rnd : ℕ → ℚ) (e : Engine) (bet : Option ℚ)
    (h : ∀ b, bet = some b → b ≤ 0 ∨ e.state.balance < b) :
    startRound W H bet rnd e = e ∧
    (startRoundMessage bet e.state = "Enter a valid bet." ∨
      startRoundMessage bet e.state = "Bet exceeds balance.") := by
  cases bet with
  | none => exact ⟨rfl, Or.inl rfl⟩
  | some b =>
    simp only [startRound, startRoundMessage]
    rcases h b rfl with h0 | h1
    · rw [if_pos h0, if_pos h0]
      exact ⟨rfl, Or.inl rfl⟩
    · by_cases h0 : b ≤ 0
      · rw [if_pos h0, if_pos h0]
        exact ⟨rfl, Or.inl rfl⟩
      · rw [if_neg h0, if_pos h1, if_neg h0, if_pos h1]
        exact ⟨rfl, Or.inr rfl⟩

/-- Witness of C3: a bet of 2000 against the starting balance 1000 leaves the engine as it
was, with the balance at 1000. -/
theorem startRound_rejects_witness :
    startRound 400 600 (some 2000) halfDraws (initialEngine 400 600) = initialEngine 400 600 ∧
    (startRound 400 600 (some 2000) halfDraws (initialEngine 400 600)).state.balance = 1000 := by
  have h := startRound_rejects 400 600 halfDraws (initialEngine 400 600) (some 2000)
    (by
      intro b hb
      cases hb
      right
      norm_num [initialEngine, START_BALANCE])
  refine ⟨h.1, ?_⟩
  rw [h.1]
  rfl

/-- C4: with the draw `r` as argument, `sampleCrashMultiplier r` is
`max 1.01 (0.96 / max r 1e-6)`; for `1e-6 < r ≤ 1` it is `max 1.01 (0.96 / r)` and at least
1.01; it is 1.01 at `r = 1` and 96 at `r = 0.01`; and for `r ≥ 0` it is at most 960000. -/
theorem sampleCrashMultiplier_law :
    (∀ r : ℚ, sampleCrashMultiplier r
        = max (101 / 100) ((96 / 100) / max r (1 / 1000000))) ∧
    (∀ r : ℚ, 1 / 1000000 < r → r ≤ 1 →
        sampleCrashMultiplier r = max (101 / 100) ((96 / 100) / r) ∧
        101 / 100 ≤ sampleCrashMultiplier r) ∧
    sampleCrashMultiplier 1 = 101 / 100 ∧
    sampleCrashMultiplier (1 / 100) = 96 ∧
    (∀ r : ℚ, 0 ≤ r → sampleCrashMultiplier r ≤ 960000) := by
  refine ⟨fun _ => rfl, ?_, ?_, ?_, fun r _ => sampleCrashMultiplier_le r⟩
  · intro r h1 _
    refine ⟨?_, sampleCrashMultiplier_ge r⟩
    simp only [sampleCrashMultiplier]
    rw [max_eq_left (le_of_lt h1)]
  · norm_num [sampleCrashMultiplier]
  · norm_num [sampleCrashMultiplier]

/-- Witness of C4: at `r = 1/2` the draw lies in `(1e-6, 1]` and the result is
`max 1.01 (0.96 / 0.5) = 1.92`. -/
theorem sampleCrashMultiplier_law_witness :
    (1 / 1000000 : ℚ) < 1 / 2 ∧ (1 / 2 : ℚ) ≤ 1 ∧
    sampleCrashMultiplier (1 / 2) = max (101 / 100) ((96 / 100) / (1 / 2)) ∧
    (101 / 100 : ℚ) ≤ sampleCrashMultiplier (1 / 2) ∧
    sampleCrashMultiplier 0 ≤ 960000 :=
  ⟨by norm_num, by norm_num,
    (sampleCrashMultiplier_law.2.1 (1 / 2) (by norm_num) (by norm_num)).1,
    (sampleCrashMultiplier_law.2.1 (1 / 2) (by norm_num) (by norm_num)).2,
    sampleCrashMultiplier_law.2.2.2.2 0 le_rfl⟩

/-! ## Claims on the tick -/

lemma startedEngine_tick_mode :
    (runTicks 400 600 [stillFrame] startedEngine).state.mode = Mode.playing := by
  unfold startedEngine
  rw [startRound_accepted 400 600 halfDraws (initialEngine 400 600) 50 (by norm_num)
    (by norm_num [initialEngine, START_BALANCE])]
  simp only [runTicks, List.foldl_cons, List.foldl_nil, updateState, stillFrame, movePlayer,
    scrollAndArm, handleCollision, resetPlayer]
  norm_num [JUMP_VELOCITY, GRAVITY, endRoundLoss, PLAYER_W, HEIGHT_PER_MULT, MOVE_SPEED,
    halfDraws, sampleCrashMultiplier]

/-- C5: the tick never changes the balance or the bet, whatever the elapsed time, the keys
and the draws, and neither does `endRoundLoss`; hence after an accepted `startRound` with
bet `b` and any number of ticks (however the round ends) the balance is the one right after
the deduction and the bet is `b`. -/
theorem tick_keeps_balance_and_bet :
    (∀ (W H delta : ℚ) (keys : Keys) (rnd : ℕ → ℚ) (e : Engine),
      (updateState W H delta keys rnd e).state.balance = e.state.balance ∧
      (updateState W H delta keys rnd e).state.bet = e.state.bet) ∧
    (∀ e : Engine,
      (endRoundLoss e).state.balance = e.state.balance ∧
      (endRoundLoss e).state.bet = e.state.bet ∧
      (endRoundLoss e).state.mode = Mode.ended) ∧
    (∀ (W H : ℚ) (rnd : ℕ → ℚ) (e : Engine) (b : ℚ) (frames : List Frame),
      0 < b → b ≤ e.state.balance →
      (runTicks W H frames (startRound W H (some b) rnd e)).state.balance
        = e.state.balance - b ∧
      (runTicks W H frames (startRound W H (some b) rnd e)).state.bet = b) := by
  refine ⟨?_, fun e => ⟨rfl, rfl, rfl⟩, ?_⟩
  · intro W H delta keys rnd e
    exact ⟨(updateState_balance W H delta keys rnd e).1,
      (updateState_balance W H delta keys rnd e).2.1⟩
  · intro W H rnd e b frames hpos hle
    have h := runTicks_balance W H frames (startRound W H (some b) rnd e)
    rw [h.1, h.2.1, startRound_accepted W H rnd e b hpos hle]
    exact ⟨rfl, rfl⟩

/-- Witness of C5: after a bet of 50 out of 1000 and two ticks the balance is 950 and the
bet is 50. -/
theorem tick_keeps_balance_and_bet_witness :
    (0 : ℚ) < 50 ∧ (50 : ℚ) ≤ (initialEngine 400 600).state.balance ∧
    (runTicks 400 600 [stillFrame, stillFrame]
      (startRound 400 600 (some 50) halfDraws (initialEngine 400 600))).state.balance = 950 ∧
    (runTicks 400 600 [stillFrame, stillFrame]
      (startRound 400 600 (some 50) halfDraws (initialEngine 400 600))).state.bet = 50 := by
  have hle : (50 : ℚ) ≤ (initialEngine 400 600).state.balance := by
    norm_num [initialEngine, START_BALANCE]
  have h := tick_keeps_balance_and_bet.2.2 400 600 halfDraws (initialEngine 400 600) 50
    [stillFrame, stillFrame] (by norm_num) hle
  refine ⟨by norm_num, hle, ?_, h.2⟩
  rw [h.1]
  norm_num [initialEngine, START_BALANCE]

/-- C6: when the mode is not playing, or the crash is armed, `cashout` returns the engine
unchanged; consequently `cashout` applied twice equals `cashout` applied once. -/
theorem cashout_noop :
    (∀ e : Engine, (e.state.mode ≠ Mode.playing ∨ e.state.crashArmed = true) →
      cashout e = e) ∧
    (∀ e : Engine, cashout (cashout e) = cashout e) := by
  have h1 : ∀ e : Engine, (e.state.mode ≠ Mode.playing ∨ e.state.crashArmed = true) →
      cashout e = e := by
    intro e h
    unfold cashout
    rw [if_pos h]
  refine ⟨h1, ?_⟩
  intro e
  by_cases h : e.state.mode ≠ Mode.playing ∨ e.state.crashArmed = true
  · rw [h1 e h]
    exact h1 e h
  · apply h1
    left
    unfold cashout
    rw [if_neg h]
    simp

/-- Witness of C6: with the crash armed in playing mode `cashout` changes nothing, and
after a cash-out a second `cashout` changes nothing. -/
theorem cashout_noop_witness :
    armedEngine.state.mode = Mode.playing ∧ armedEngine.state.crashArmed = true ∧
    cashout armedEngine = armedEngine ∧
    cashout (cashout playingEngine) = cashout playingEngine :=
  ⟨rfl, rfl, cashout_noop.1 armedEngine (Or.inr rfl), cashout_noop.2 playingEngine⟩

/-- C7: in every state reached from an accepted `startRound` by any sequence of ticks, if
the mode is playing or crashing then `multiplier = 1 + heightClimbed / 200`; in particular a
climbed height of 200 goes with the multiplier 2. -/
theorem multiplier_tracks_height (W H : ℚ) (rnd : ℕ → ℚ) (e : Engine) (b : ℚ)
    (frames : List Frame) (hpos : 0 < b) (hle : b ≤ e.state.balance) :
    ((runTicks W H frames (startRound W H (some b) rnd e)).state.mode = Mode.playing ∨
      (runTicks W H frames (startRound W H (some b) rnd e)).state.mode = Mode.crashing) →
    (runTicks W H frames (startRound W H (some b) rnd e)).state.multiplier =
      1 + (runTicks W H frames (startRound W H (some b) rnd e)).state.heightClimbed / 200 ∧
    ((runTicks W H frames (startRound W H (some b) rnd e)).state.heightClimbed = 200 →
      (runTicks W H frames (startRound W H (some b) rnd e)).state.multiplier = 2) := by
  intro _
  have h := (runTicks_roundInv W H frames _ (startRound_roundInv W H rnd e b hpos hle)).1
  simp only [HEIGHT_PER_MULT] at h
  refine ⟨h, ?_⟩
  intro h200
  rw [h, h200]
  norm_num

/-- Witness of C7: one tick after a bet of 50 the mode is playing and the multiplier is the
one derived from the climbed height. -/
theorem multiplier_tracks_height_witness :
    (runTicks 400 600 [stillFrame]
      (startRound 400 600 (some 50) halfDraws (initialEngine 400 600))).state.mode
        = Mode.playing ∧
    (runTicks 400 600 [stillFrame]
      (startRound 400 600 (some 50) halfDraws (initialEngine 400 600))).state.multiplier =
      1 + (runTicks 400 600 [stillFrame]
        (startRound 400 600 (some 50) halfDraws (initialEngine 400 600))).state.heightClimbed
          / 200 :=
  ⟨startedEngine_tick_mode,
    (multiplier_tracks_height 400 600 halfDraws (initialEngine 400 600) 50 [stillFrame]
      (by norm_num) (by norm_num [initialEngine, START_BALANCE])
      (Or.inl startedEngine_tick_mode)).1⟩

/-- C8: once `crashArmed` is true, every tick and every `cashout` leave it true; an
accepted `startRound` sets it back to false. -/
theorem crashArmed_monotone :
    (∀ (W H delta : ℚ) (keys : Keys) (rnd : ℕ → ℚ) (e : Engine),
      e.state.crashArmed = true →
      (updateState W H delta keys rnd e).state.crashArmed = true) ∧
    (∀ e : Engine, e.state.crashArmed = true → (cashout e).state.crashArmed = true) ∧
    (∀ (W H : ℚ) (rnd : ℕ → ℚ) (e : Engine) (b : ℚ), 0 < b → b ≤ e.state.balance →
      (startRound W H (some b) rnd e).state.crashArmed = false) := by
  refine ⟨updateState_crashArmed, ?_, ?_⟩
  · intro e ha
    unfold cashout
    rw [if_pos (Or.inr ha)]
    exact ha
  · intro W H rnd e b hpos hle
    rw [startRound_accepted W H rnd e b hpos hle]

/-- Witness of C8: on the armed example a tick and a cash-out keep the flag, and a new
round with a bet of 50 clears it. -/
theorem crashArmed_monotone_witness :
    armedEngine.state.crashArmed = true ∧
    (updateState 400 600 (1667 / 100) stillFrame.keys halfDraws armedEngine).state.crashArmed
      = true ∧
    (cashout armedEngine).state.crashArmed = true ∧
    (startRound 400 600 (some 50) halfDraws armedEngine).state.crashArmed = false :=
  ⟨rfl, crashArmed_monotone.1 400 600 (1667 / 100) stillFrame.keys halfDraws armedEngine rfl,
    crashArmed_monotone.2.1 armedEngine rfl,
    crashArmed_monotone.2.2 400 600 halfDraws armedEngine 50 (by norm_num)
      (by norm_num [armedEngine, playingEngine])⟩

/-- C9: in every state reached from an accepted `startRound` by any sequence of ticks, if
the mode is playing or crashing then `crashArmed` is true exactly when the multiplier is at
least the crash multiplier. -/
theorem crashArmed_iff_reached (W H : ℚ) (rnd : ℕ → ℚ) (e : Engine) (b : ℚ)
    (frames : List Frame) (hpos : 0 < b) (hle : b ≤ e.state.balance) :
    ((runTicks W H frames (startRound W H (some b) rnd e)).state.mode = Mode.playing ∨
      (runTicks W H frames (startRound W H (some b) rnd e)).state.mode = Mode.crashing) →
    ((runTicks W H frames (startRound W H (some b) rnd e)).state.crashArmed = true ↔
      (runTicks W H frames (startRound W H (some b) rnd e)).state.multiplier ≥
        (runTicks W H frames (startRound W H (some b) rnd e)).state.crashMult) :=
  fun _ => (runTicks_roundInv W H frames _ (startRound_roundInv W H rnd e b hpos hle)).2

/-- Witness of C9: one tick after a bet of 50 the mode is playing and the flag agrees with
the comparison of the multiplier with the crash multiplier. -/
theorem crashArmed_iff_reached_witness :
    (runTicks 400 600 [stillFrame]
      (startRound 400 600 (some 50) halfDraws (initialEngine 400 600))).state.mode
        = Mode.playing ∧
    ((runTicks 400 600 [stillFrame]
      (startRound 400 600 (some 50) halfDraws (initialEngine 400 600))).state.crashArmed = true ↔
      (runTicks 400 600 [stillFrame]
        (startRound 400 600 (some 50) halfDraws (initialEngine 400 600))).state.multiplier ≥
      (runTicks 400 600 [stillFrame]
        (startRound 400 600 (some 50) halfDraws (initialEngine 400 600))).state.crashMult) :=
  ⟨startedEngine_tick_mode,
    crashArmed_iff_reached 400 600 halfDraws (initialEngine 400 600) 50 [stillFrame]
      (by norm_num) (by norm_num [initialEngine, START_BALANCE])
      (Or.inl startedEngine_tick_mode)⟩

/-! ## The start command and the mode -/

/-- C10, as stated, fails: `startRound` does not test the mode. In the playing example
(balance 950) a bet of 50 is accepted: the balance drops to 900 and the climbed height is
reset from 300 to 0. -/
theorem startRound_ignores_mode :
    playingEngine.state.mode = Mode.playing ∧
    playingEngine.state.balance = 950 ∧
    playingEngine.state.heightClimbed = 300 ∧
    (startRound 400 600 (some 50) halfDraws playingEngine).state.balance = 900 ∧
    (startRound 400 600 (some 50) halfDraws playingEngine).state.heightClimbed = 0 ∧
    startRound 400 600 (some 50) halfDraws playingEngine ≠ playingEngine := by
  have h := startRound_accepted 400 600 halfDraws playingEngine 50 (by norm_num)
    (by norm_num [playingEngine])
  have hb : (startRound 400 600 (some 50) halfDraws playingEngine).state.balance = 900 := by
    rw [h]
    norm_num [playingEngine]
  refine ⟨rfl, rfl, rfl, hb, by rw [h], ?_⟩
  intro heq
  rw [heq] at hb
  norm_num [playingEngine] at hb

/-- C10, amended: `startRound` does not look at the mode. In every state, those in playing
or crashing mode included, it returns the engine unchanged exactly when the bet is not
finite, is at most 0 or exceeds the balance; a finite bet `b` with `0 < b ≤ balance` is
accepted whatever the mode (the bet is deducted and the round reset), and the resulting
engine is the same for every value of the mode. The mode is consulted for the start command
only by `updateHud`, which sets the `disabled` flag of the start button and of the bet input
exactly when the mode is playing or crashing. -/
theorem startRound_any_mode (W H : ℚ) (bet : Option ℚ) (rnd : ℕ → ℚ) (e : Engine) :
    (startRound W H bet rnd e = e ↔
      ∀ b, bet = some b → b ≤ 0 ∨ e.state.balance < b) ∧
    (∀ b, bet = some b → 0 < b → b ≤ e.state.balance →
      (startRound W H bet rnd e).state.balance = e.state.balance - b ∧
      (startRound W H bet rnd e).state.bet = b ∧
      (startRound W H bet rnd e).state.mode = Mode.playing ∧
      (startRound W H bet rnd e).state.multiplier = 1 ∧
      (startRound W H bet rnd e).state.heightClimbed = 0 ∧
      (startRound W H bet rnd e).state.crashArmed = false ∧
      (startRound W H bet rnd e).state.lossSoundPlayed = false ∧
      (startRound W H bet rnd e).state.crashMult = sampleCrashMultiplier (rnd 0) ∧
      (startRound W H bet rnd e).player = resetPlayer W H ∧
      (startRound W H bet rnd e).platforms = resetPlatforms W H (fun n => rnd (n + 1))) ∧
    (∀ (m : Mode) (b : ℚ), bet = some b → 0 < b → b ≤ e.state.balance →
      startRound W H bet rnd { e with state := { e.state with mode := m } }
        = startRound W H bet rnd e) ∧
    ((updateHud e.state).startBtnDisabled = true ↔
      (e.state.mode = Mode.playing ∨ e.state.mode = Mode.crashing)) ∧
    ((updateHud e.state).betInputDisabled = true ↔
      (e.state.mode = Mode.playing ∨ e.state.mode = Mode.crashing)) := by
  refine ⟨?_, ?_, ?_, by simp [updateHud], by simp [updateHud]⟩
  · constructor
    · intro heq b hb
      subst hb
      by_contra hn
      have hpos : 0 < b := by
        by_contra h0
        exact hn (Or.inl (not_lt.mp h0))
      have hle : b ≤ e.state.balance := by
        by_contra h1
        exact hn (Or.inr (not_le.mp h1))
      have hbal : (startRound W H (some b) rnd e).state.balance = e.state.balance - b := by
        rw [startRound_accepted W H rnd e b hpos hle]
      rw [heq] at hbal
      linarith
    · intro h
      cases bet with
      | none => rfl
      | some b =>
        simp only [startRound]
        rcases h b rfl with h0 | h1
        · rw [if_pos h0]
        · by_cases h0 : b ≤ 0
          · rw [if_pos h0]
          · rw [if_neg h0, if_pos h1]
  · intro b hb hpos hle
    subst hb
    rw [startRound_accepted W H rnd e b hpos hle]
    exact ⟨rfl, rfl, rfl, rfl, rfl, rfl, rfl, rfl, rfl, rfl⟩
  · intro m b hb hpos hle
    subst hb
    rw [startRound_accepted W H rnd e b hpos hle,
      startRound_accepted W H rnd { e with state := { e.state with mode := m } } b hpos hle]

/-- Witness of C10 amended: in the crashing example (balance 950) a bet of 50 is accepted:
the balance drops to 900 and the mode becomes playing; a bet of 2000 is rejected. -/
theorem startRound_any_mode_witness :
    crashingEngine.state.mode = Mode.crashing ∧
    (startRound 400 600 (some 50) halfDraws crashingEngine).state.balance = 900 ∧
    (startRound 400 600 (some 50) halfDraws crashingEngine).state.mode = Mode.playing ∧
    startRound 400 600 (some 2000) halfDraws crashingEngine = crashingEngine := by
  have hle : (50 : ℚ) ≤ crashingEngine.state.balance := by
    norm_num [crashingEngine, fallingEngine, playingEngine]
  have h := (startRound_any_mode 400 600 (some 50) halfDraws crashingEngine).2.1 50 rfl
    (by norm_num) hle
  have h2 := (startRound_any_mode 400 600 (some 2000) halfDraws crashingEngine).1.mpr
    (by
      intro b hb
      cases hb
      right
      norm_num [crashingEngine, fallingEngine, playingEngine])
  refine ⟨rfl, ?_, h.2.2.1, h2⟩
  rw [h.1]
  norm_num [crashingEngine, fallingEngine, playingEngine]

/-! ## Lemmas on the collision -/

lemma landsOn_iff (prevY : ℚ) (pl : Player) (p : Platform) :
    landsOn prevY pl p = true ↔
      (pl.x + PLAYER_W > p.x ∧ pl.x < p.x + p.w) ∧
      (prevY + PLAYER_H ≤ p.y ∧ p.y ≤ pl.y + PLAYER_H) := by
  simp [landsOn]

lemma handleCollisionLoop_cons (prevY : ℚ) (s : State) (pl : Player) (p : Platform)
    (ps : List Platform) :
    handleCollisionLoop prevY s pl (p :: ps) =
      if landsOn prevY pl p = true then
        if s.crashArmed = true then
          ({ s with mode := Mode.crashing, lossSoundPlayed := true },
           { pl with vy := 2 },
           { p with type := PlatformType.break_ } :: ps)
        else
          (s, { pl with vy := JUMP_VELOCITY }, p :: ps)
      else
        ((handleCollisionLoop prevY s pl ps).1, (handleCollisionLoop prevY s pl ps).2.1,
          p :: (handleCollisionLoop prevY s pl ps).2.2) := rfl

lemma handleCollisionLoop_first (prevY : ℚ) (s : State) (pl : Player)
    (pre : List Platform) (p : Platform) (post : List Platform)
    (hpre : ∀ q ∈ pre, landsOn prevY pl q = false) (hp : landsOn prevY pl p = true) :
    handleCollisionLoop prevY s pl (pre ++ p :: post) =
      if s.crashArmed = true then
        ({ s with mode := Mode.crashing, lossSoundPlayed := true },
         { pl with vy := 2 },
         pre ++ { p with type := PlatformType.break_ } :: post)
      else
        (s, { pl with vy := JUMP_VELOCITY }, pre ++ p :: post) := by
  induction pre with
  | nil =>
    rw [List.nil_append, handleCollisionLoop_cons, if_pos hp]
    rfl
  | cons q qs ih =>
    have hq : landsOn prevY pl q = false := hpre q (List.mem_cons_self _ _)
    have ih2 := ih (fun r hr => hpre r (List.mem_cons_of_mem _ hr))
    rw [List.cons_append, handleCollisionLoop_cons, hq, ih2]
    by_cases ha : s.crashArmed = true
    · simp [ha]
    · simp [ha]

lemma handleCollisionLoop_none (prevY : ℚ) (s : State) (pl : Player) (ps : List Platform)
    (hall : ∀ q ∈ ps, landsOn prevY pl q = false) :
    handleCollisionLoop prevY s pl ps = (s, pl, ps) := by
  induction ps with
  | nil => rfl
  | cons q qs ih =>
    have hq : landsOn prevY pl q = false := hall q (List.mem_cons_self _ _)
    rw [handleCollisionLoop_cons, hq, ih (fun r hr => hall r (List.mem_cons_of_mem _ hr))]
    simp

lemma handleCollision_active (prevY : ℚ) (e : Engine) (hm : e.state.mode = Mode.playing)
    (hv : 0 < e.player.vy) :
    handleCollision prevY e =
      { state := (handleCollisionLoop prevY e.state e.player e.platforms).1
        player := (handleCollisionLoop prevY e.state e.player e.platforms).2.1
        platforms := (handleCollisionLoop prevY e.state e.player e.platforms).2.2 } := by
  unfold handleCollision
  rw [if_neg]
  rintro (h | h)
  · exact h hm
  · exact absurd hv (not_lt.mpr h)

lemma handleCollision_inactive (prevY : ℚ) (e : Engine)
    (h : e.state.mode ≠ Mode.playing ∨ e.player.vy ≤ 0) : handleCollision prevY e = e := by
  unfold handleCollision
  rw [if_pos h]

/-! ## The landing response -/

/-- C11: the collision step of a playing-mode tick with the player falling (`vy > 0`).
`landsOn` is the conjunction of the horizontal overlap and the vertical crossing. For the
first platform `p` in sequence order that passes the test: with the crash armed, `p` becomes
break, the mode crashing, `vy` 2 and `lossSoundPlayed` true; otherwise `vy` becomes
`JUMP_VELOCITY = -10` and nothing else changes. In both cases every other platform is left
as it is, and when no platform passes the test the engine is unchanged. -/
theorem handleCollision_first_landing (prevY : ℚ) (e : Engine)
    (hm : e.state.mode = Mode.playing) (hv : 0 < e.player.vy) :
    (∀ p : Platform, landsOn prevY e.player p = true ↔
      (e.player.x + PLAYER_W > p.x ∧ e.player.x < p.x + p.w) ∧
      (prevY + PLAYER_H ≤ p.y ∧ p.y ≤ e.player.y + PLAYER_H)) ∧
    (∀ (pre : List Platform) (p : Platform) (post : List Platform),
      e.platforms = pre ++ p :: post →
      (∀ q ∈ pre, landsOn prevY e.player q = false) →
      landsOn prevY e.player p = true →
      (e.state.crashArmed = true →
        handleCollision prevY e =
          { state := { e.state with mode := Mode.crashing, lossSoundPlayed := true }
            player := { e.player with vy := 2 }
            platforms := pre ++ { p with type := PlatformType.break_ } :: post }) ∧
      (e.state.crashArmed = false →
        handleCollision prevY e = { e with player := { e.player with vy := JUMP_VELOCITY } })) ∧
    ((∀ q ∈ e.platforms, landsOn prevY e.player q = false) → handleCollision prevY e = e) ∧
    JUMP_VELOCITY = -10 := by
  refine ⟨fun p => landsOn_iff prevY e.player p, ?_, ?_, rfl⟩
  · intro pre p post hps hpre hp
    have h := handleCollision_active prevY e hm hv
    rw [hps, handleCollisionLoop_first prevY e.state e.player pre p post hpre hp] at h
    constructor
    · intro ha
      rw [h, if_pos ha]
    · intro ha
      have hn : ¬ e.state.crashArmed = true := by rw [ha]; simp
      rw [h, if_neg hn]
      cases e
      simp only [Engine.mk.injEq, true_and]
      exact hps.symm
  · intro hall
    rw [handleCollision_active prevY e hm hv,
      handleCollisionLoop_none prevY e.state e.player e.platforms hall]

/-- Witness of C11: in the armed example the player (bottom edge from 334 to 340) crosses
the top of the second platform at 336 and misses the first; the second platform becomes
break, the mode crashing and `vy` 2. -/
theorem handleCollision_first_landing_witness :
    landingEngine.state.mode = Mode.playing ∧ 0 < landingEngine.player.vy ∧
    handleCollision 300 landingEngine =
      { state := { landingEngine.state with mode := Mode.crashing, lossSoundPlayed := true }
        player := { landingEngine.player with vy := 2 }
        platforms :=
          [ { x := 0, y := 500, w := PLATFORM_W, h := PLATFORM_H, type := PlatformType.normal },
            { x := 170, y := 336, w := PLATFORM_W, h := PLATFORM_H,
              type := PlatformType.break_ } ] } := by
  have hv : 0 < landingEngine.player.vy := by norm_num [landingEngine]
  refine ⟨rfl, hv, ?_⟩
  have h := ((handleCollision_first_landing 300 landingEngine rfl hv).2.1
    [{ x := 0, y := 500, w := PLATFORM_W, h := PLATFORM_H, type := PlatformType.normal }]
    { x := 170, y := 336, w := PLATFORM_W, h := PLATFORM_H, type := PlatformType.normal }
    [] rfl
    (by
      intro q hq
      rw [List.mem_singleton] at hq
      rw [hq]
      norm_num [landsOn, landingEngine, PLAYER_W, PLAYER_H, PLATFORM_W])
    (by norm_num [landsOn, landingEngine, PLAYER_W, PLAYER_H, PLATFORM_W])).1 rfl
  rw [h]
  rfl

/-! ## Lemmas on the stages of the tick -/

lemma updateState_active (W H delta : ℚ) (keys : Keys) (rnd : ℕ → ℚ) (e : Engine)
    (h : e.state.mode = Mode.playing ∨ e.state.mode = Mode.crashing) :
    updateState W H delta keys rnd e =
      if (afterCollision W H delta keys e).player.y > H + 80 then
        endRoundLoss
          { afterCollision W H delta keys e with
            platforms := updatePlatforms W H rnd (afterCollision W H delta keys e).platforms }
      else
        { afterCollision W H delta keys e with
          platforms := updatePlatforms W H rnd (afterCollision W H delta keys e).platforms } := by
  have hn : ¬ (e.state.mode ≠ Mode.playing ∧ e.state.mode ≠ Mode.crashing) := by
    rintro ⟨h1, h2⟩
    rcases h with h | h
    · exact h1 h
    · exact h2 h
  unfold updateState
  rw [if_neg hn]
  rfl

lemma updateState_player (W H delta : ℚ) (keys : Keys) (rnd : ℕ → ℚ) (e : Engine)
    (h : e.state.mode = Mode.playing ∨ e.state.mode = Mode.crashing) :
    (updateState W H delta keys rnd e).player = (afterCollision W H delta keys e).player := by
  rw [updateState_active W H delta keys rnd e h]
  split_ifs <;> rfl

lemma updateState_platforms (W H delta : ℚ) (keys : Keys) (rnd : ℕ → ℚ) (e : Engine)
    (h : e.state.mode = Mode.playing ∨ e.state.mode = Mode.crashing) :
    (updateState W H delta keys rnd e).platforms =
      updatePlatforms W H rnd (afterCollision W H delta keys e).platforms := by
  rw [updateState_active W H delta keys rnd e h]
  split_ifs <;> rfl

lemma updateState_mode (W H delta : ℚ) (keys : Keys) (rnd : ℕ → ℚ) (e : Engine)
    (h : e.state.mode = Mode.playing ∨ e.state.mode = Mode.crashing) :
    (updateState W H delta keys rnd e).state.mode =
      if (afterCollision W H delta keys e).player.y > H + 80 then Mode.ended
      else (afterCollision W H delta keys e).state.mode := by
  rw [updateState_active W H delta keys rnd e h]
  split_ifs <;> rfl

lemma scrollAndArm_mode (H : ℚ) (e : Engine) : (scrollAndArm H e).state.mode = e.state.mode := by
  by_cases hm : e.state.mode = Mode.playing
  · obtain ⟨shift, _, hs⟩ := scrollAndArm_playing_state H e hm
    rw [hs]
  · rw [scrollAndArm_not_playing H e hm]

lemma afterScroll_mode (W H delta : ℚ) (keys : Keys) (e : Engine) :
    (afterScroll W H delta keys e).state.mode = e.state.mode :=
  scrollAndArm_mode H (afterMove W delta keys e)

lemma afterCollision_mode (W H delta : ℚ) (keys : Keys) (e : Engine) :
    (afterCollision W H delta keys e).state.mode = e.state.mode ∨
    (e.state.mode = Mode.playing ∧
      (afterCollision W H delta keys e).state.crashArmed = true ∧
      (afterCollision W H delta keys e).state.mode = Mode.crashing) := by
  unfold afterCollision
  rcases handleCollision_state e.player.y (afterScroll W H delta keys e) with h | ⟨h1, h2, h3⟩
  · left
    rw [h, afterScroll_mode]
  · right
    rw [afterScroll_mode] at h1
    rw [h3]
    exact ⟨h1, h2, rfl⟩

lemma updateState_crashArmed_eq (W H delta : ℚ) (keys : Keys) (rnd : ℕ → ℚ) (e : Engine)
    (h : e.state.mode = Mode.playing ∨ e.state.mode = Mode.crashing) :
    (updateState W H delta keys rnd e).state.crashArmed =
      (afterCollision W H delta keys e).state.crashArmed := by
  rw [updateState_active W H delta keys rnd e h]
  split_ifs <;> rfl

/-! ## Lemmas on the length of the platform field -/

lemma updatePlatformsLoop_length (W H : ℚ) (rnd : ℕ → ℚ) (k : ℕ) (t : ℚ)
    (ps : List Platform) : (updatePlatformsLoop W H rnd k t ps).length = ps.length := by
  induction ps generalizing k t with
  | nil => rfl
  | cons p ps ih =>
    simp only [updatePlatformsLoop]
    split_ifs <;> simp [ih]

lemma updatePlatforms_length (W H : ℚ) (rnd : ℕ → ℚ) (ps : List Platform) :
    (updatePlatforms W H rnd ps).length = ps.length := by
  cases ps with
  | nil => rfl
  | cons p ps => exact updatePlatformsLoop_length W H rnd 0 _ (p :: ps)

lemma handleCollisionLoop_length (prevY : ℚ) (s : State) (pl : Player) (ps : List Platform) :
    (handleCollisionLoop prevY s pl ps).2.2.length = ps.length := by
  induction ps with
  | nil => rfl
  | cons p ps ih =>
    rw [handleCollisionLoop_cons]
    split_ifs <;> simp [ih]

lemma handleCollision_length (prevY : ℚ) (e : Engine) :
    (handleCollision prevY e).platforms.length = e.platforms.length := by
  unfold handleCollision
  split_ifs
  · rfl
  · exact handleCollisionLoop_length prevY e.state e.player e.platforms

lemma scrollAndArm_scroll (H : ℚ) (e : Engine) (hm : e.state.mode = Mode.playing)
    (hs : e.player.y < H * (3 / 10) ∧ e.player.vy < 0) :
    (scrollAndArm H e).player = { e.player with y := H * (3 / 10) } ∧
    (scrollAndArm H e).platforms =
      e.platforms.map (fun p => { p with y := p.y + (H * (3 / 10) - e.player.y) }) ∧
    (scrollAndArm H e).state.heightClimbed =
      e.state.heightClimbed + (H * (3 / 10) - e.player.y) := by
  unfold scrollAndArm
  rw [if_pos hm]
  simp only [if_pos hs]
  refine ⟨trivial, trivial, ?_⟩
  split_ifs <;> rfl

lemma scrollAndArm_noscroll (H : ℚ) (e : Engine) (hm : e.state.mode = Mode.playing)
    (hs : ¬ (e.player.y < H * (3 / 10) ∧ e.player.vy < 0)) :
    (scrollAndArm H e).player = e.player ∧
    (scrollAndArm H e).platforms = e.platforms ∧
    (scrollAndArm H e).state.heightClimbed = e.state.heightClimbed := by
  unfold scrollAndArm
  rw [if_pos hm]
  simp only [if_neg hs]
  refine ⟨trivial, trivial, ?_⟩
  split_ifs <;> rfl

lemma scrollAndArm_length (H : ℚ) (e : Engine) :
    (scrollAndArm H e).platforms.length = e.platforms.length := by
  by_cases hm : e.state.mode = Mode.playing
  · by_cases hs : e.player.y < H * (3 / 10) ∧ e.player.vy < 0
    · rw [(scrollAndArm_scroll H e hm hs).2.1, List.length_map]
    · rw [(scrollAndArm_noscroll H e hm hs).2.1]
  · rw [scrollAndArm_not_playing H e hm]

lemma updateState_length (W H delta : ℚ) (keys : Keys) (rnd : ℕ → ℚ) (e : Engine) :
    (updateState W H delta keys rnd e).platforms.length = e.platforms.length := by
  by_cases h : e.state.mode = Mode.playing ∨ e.state.mode = Mode.crashing
  · rw [updateState_platforms W H delta keys rnd e h, updatePlatforms_length]
    unfold afterCollision afterScroll afterMove
    rw [handleCollision_length, scrollAndArm_length]
  · rw [updateState_inactive W H delta keys rnd e]
    exact ⟨fun h1 => h (Or.inl h1), fun h2 => h (Or.inr h2)⟩

lemma runTicks_length (W H : ℚ) (frames : List Frame) (e : Engine) :
    (runTicks W H frames e).platforms.length = e.platforms.length := by
  induction frames generalizing e with
  | nil => rfl
  | cons f fs ih =>
    simp only [runTicks, List.foldl_cons]
    exact (ih _).trans (updateState_length W H f.delta f.keys f.rnd e)

lemma cashout_platforms (e : Engine) : (cashout e).platforms = e.platforms := by
  unfold cashout
  split_ifs <;> rfl

/-! ## Mode transitions and the size of the field -/

/-- C12: the tick moves the mode only along the edges of the state machine. From idle or
ended the engine is unchanged; from playing the new mode is playing, crashing or ended;
from crashing it is crashing or ended; crashing is entered from playing only with
`crashArmed` true; and from playing or crashing the new mode is ended exactly when the new
`player.y` exceeds `H + 80`. -/
theorem tick_mode_edges (W H delta : ℚ) (keys : Keys) (rnd : ℕ → ℚ) (e : Engine) :
    ((e.state.mode = Mode.idle ∨ e.state.mode = Mode.ended) →
      updateState W H delta keys rnd e = e) ∧
    (e.state.mode = Mode.playing →
      (updateState W H delta keys rnd e).state.mode = Mode.playing ∨
      (updateState W H delta keys rnd e).state.mode = Mode.crashing ∨
      (updateState W H delta keys rnd e).state.mode = Mode.ended) ∧
    (e.state.mode = Mode.crashing →
      (updateState W H delta keys rnd e).state.mode = Mode.crashing ∨
      (updateState W H delta keys rnd e).state.mode = Mode.ended) ∧
    (e.state.mode = Mode.playing →
      (updateState W H delta keys rnd e).state.mode = Mode.crashing →
      (updateState W H delta keys rnd e).state.crashArmed = true) ∧
    ((e.state.mode = Mode.playing ∨ e.state.mode = Mode.crashing) →
      ((updateState W H delta keys rnd e).state.mode = Mode.ended ↔
        (updateState W H delta keys rnd e).player.y > H + 80)) := by
  refine ⟨?_, ?_, ?_, ?_, ?_⟩
  · intro h
    apply updateState_inactive
    rcases h with h | h <;> rw [h] <;> exact ⟨by decide, by decide⟩
  · intro hm
    rw [updateState_mode W H delta keys rnd e (Or.inl hm)]
    split_ifs
    · exact Or.inr (Or.inr rfl)
    · rcases afterCollision_mode W H delta keys e with h | ⟨_, _, h⟩
      · exact Or.inl (h.trans hm)
      · exact Or.inr (Or.inl h)
  · intro hm
    rw [updateState_mode W H delta keys rnd e (Or.inr hm)]
    split_ifs
    · exact Or.inr rfl
    · rcases afterCollision_mode W H delta keys e with h | ⟨h1, _, _⟩
      · exact Or.inl (h.trans hm)
      · rw [hm] at h1
        exact absurd h1 (by decide)
  · intro hm
    rw [updateState_mode W H delta keys rnd e (Or.inl hm),
      updateState_crashArmed_eq W H delta keys rnd e (Or.inl hm)]
    split_ifs
    · intro h
      exact absurd h (by decide)
    · intro hc
      rcases afterCollision_mode W H delta keys e with h | ⟨_, h2, _⟩
      · rw [h, hm] at hc
        exact absurd hc (by decide)
      · exact h2
  · intro hm
    rw [updateState_mode W H delta keys rnd e hm, updateState_player W H delta keys rnd e hm]
    split_ifs with hy
    · exact ⟨fun _ => hy, fun _ => rfl⟩
    · constructor
      · intro hc
        exfalso
        rcases afterCollision_mode W H delta keys e with h | ⟨_, _, h⟩
        · rw [h] at hc
          rcases hm with hm | hm <;> rw [hm] at hc <;> exact absurd hc (by decide)
        · rw [h] at hc
          exact absurd hc (by decide)
      · intro h
        exact absurd h hy

/-- Witness of C12: an idle tick changes nothing; a tick of the playing example stays in
one of the three modes and ends the round exactly when the player is below `H + 80`. -/
theorem tick_mode_edges_witness :
    updateState 400 600 (1667 / 100) stillFrame.keys halfDraws (initialEngine 400 600)
      = initialEngine 400 600 ∧
    ((updateState 400 600 (1667 / 100) stillFrame.keys halfDraws playingEngine).state.mode
        = Mode.playing ∨
      (updateState 400 600 (1667 / 100) stillFrame.keys halfDraws playingEngine).state.mode
        = Mode.crashing ∨
      (updateState 400 600 (1667 / 100) stillFrame.keys halfDraws playingEngine).state.mode
        = Mode.ended) ∧
    ((updateState 400 600 (1667 / 100) stillFrame.keys halfDraws playingEngine).state.mode
        = Mode.ended ↔
      (updateState 400 600 (1667 / 100) stillFrame.keys halfDraws playingEngine).player.y
        > 600 + 80) :=
  ⟨(tick_mode_edges 400 600 (1667 / 100) stillFrame.keys halfDraws
      (initialEngine 400 600)).1 (Or.inl rfl),
    (tick_mode_edges 400 600 (1667 / 100) stillFrame.keys halfDraws playingEngine).2.1 rfl,
    (tick_mode_edges 400 600 (1667 / 100) stillFrame.keys halfDraws
      playingEngine).2.2.2.2 (Or.inl rfl)⟩

/-- C13: `resetPlatforms` builds exactly `PLATFORM_COUNT = 12` platforms; every tick and
every `cashout` keep the length of the field; so after an accepted `startRound` and any
number of ticks the field has exactly 12 platforms. -/
theorem platform_count_preserved :
    (∀ (W H : ℚ) (rnd : ℕ → ℚ), (resetPlatforms W H rnd).length = PLATFORM_COUNT) ∧
    PLATFORM_COUNT = 12 ∧
    (∀ (W H delta : ℚ) (keys : Keys) (rnd : ℕ → ℚ) (e : Engine),
      (updateState W H delta keys rnd e).platforms.length = e.platforms.length) ∧
    (∀ (W H : ℚ) (rnd : ℕ → ℚ) (ps : List Platform),
      (updatePlatforms W H rnd ps).length = ps.length) ∧
    (∀ e : Engine, (cashout e).platforms.length = e.platforms.length) ∧
    (∀ (W H : ℚ) (rnd : ℕ → ℚ) (e : Engine) (b : ℚ) (frames : List Frame),
      0 < b → b ≤ e.state.balance →
      (runTicks W H frames (startRound W H (some b) rnd e)).platforms.length = 12) := by
  refine ⟨resetPlatforms_length, rfl, updateState_length, updatePlatforms_length, ?_, ?_⟩
  · intro e
    rw [cashout_platforms]
  · intro W H rnd e b frames hpos hle
    rw [runTicks_length, startRound_accepted W H rnd e b hpos hle]
    exact resetPlatforms_length W H _

/-- Witness of C13: after a bet of 50 from the initial state and two ticks the field has 12
platforms. -/
theorem platform_count_preserved_witness :
    (0 : ℚ) < 50 ∧ (50 : ℚ) ≤ (initialEngine 400 600).state.balance ∧
    (runTicks 400 600 [stillFrame, stillFrame]
      (startRound 400 600 (some 50) halfDraws (initialEngine 400 600))).platforms.length
        = 12 := by
  have hle : (50 : ℚ) ≤ (initialEngine 400 600).state.balance := by
    norm_num [initialEngine, START_BALANCE]
  exact ⟨by norm_num, hle,
    platform_count_preserved.2.2.2.2.2 400 600 halfDraws (initialEngine 400 600) 50
      [stillFrame, stillFrame] (by norm_num) hle⟩

/-! ## Lemmas on runs -/

lemma startRound_cases (W H : ℚ) (bet : Option ℚ) (rnd : ℕ → ℚ) (e : Engine) :
    startRound W H bet rnd e = e ∨
    ∃ b : ℚ, bet = some b ∧ 0 < b ∧ b ≤ e.state.balance := by
  cases bet with
  | none => exact Or.inl rfl
  | some b =>
    by_cases h0 : b ≤ 0
    · left
      simp only [startRound]
      rw [if_pos h0]
    · by_cases h1 : b > e.state.balance
      · left
        simp only [startRound]
        rw [if_neg h0, if_pos h1]
      · exact Or.inr ⟨b, rfl, not_le.mp h0, not_lt.mp h1⟩

lemma updateState_height_mono (W H delta : ℚ) (keys : Keys) (rnd : ℕ → ℚ) (e : Engine) :
    e.state.heightClimbed ≤ (updateState W H delta keys rnd e).state.heightClimbed := by
  by_cases h : e.state.mode ≠ Mode.playing ∧ e.state.mode ≠ Mode.crashing
  · rw [updateState_inactive W H delta keys rnd e h]
  · obtain ⟨_, _, _, h4, _, _⟩ := updateState_sameRound W H delta keys rnd e h
    rw [h4]
    by_cases hm : e.state.mode = Mode.playing
    · obtain ⟨shift, hshift, hs⟩ := scrollAndArm_playing_state H
        { e with player := movePlayer W delta keys e.player } hm
      rw [hs]
      simp only
      linarith
    · rw [scrollAndArm_not_playing H { e with player := movePlayer W delta keys e.player } hm]

lemma startRound_econInv (W H : ℚ) (bet : Option ℚ) (rnd : ℕ → ℚ) (e : Engine)
    (hi : EconInv e.state) : EconInv (startRound W H bet rnd e).state := by
  rcases startRound_cases W H bet rnd e with h | ⟨b, hb, hpos, hle⟩
  · rw [h]
    exact hi
  · subst hb
    have hr := startRound_roundInv W H rnd e b hpos hle
    rw [startRound_accepted W H rnd e b hpos hle] at hr ⊢
    exact ⟨by simp only; linarith, le_of_lt hpos, le_rfl, le_rfl, fun _ => ⟨hpos, hr⟩⟩

lemma cashout_econInv (e : Engine) (hi : EconInv e.state) : EconInv (cashout e).state := by
  unfold cashout
  split_ifs with h
  · exact hi
  · obtain ⟨h1, h2, h3, h4, _⟩ := hi
    refine ⟨?_, h2, h3, h4, ?_⟩
    · have : 0 ≤ e.state.bet * e.state.multiplier := mul_nonneg h2 (by linarith)
      simp only
      linarith
    · intro hm
      simp only at hm
      rcases hm with hm | hm <;> exact absurd hm (by decide)

lemma updateState_econInv (W H delta : ℚ) (keys : Keys) (rnd : ℕ → ℚ) (e : Engine)
    (hi : EconInv e.state) : EconInv (updateState W H delta keys rnd e).state := by
  by_cases h : e.state.mode ≠ Mode.playing ∧ e.state.mode ≠ Mode.crashing
  · rw [updateState_inactive W H delta keys rnd e h]
    exact hi
  · have hact : e.state.mode = Mode.playing ∨ e.state.mode = Mode.crashing := by
      by_contra hn
      exact h ⟨fun h1 => hn (Or.inl h1), fun h2 => hn (Or.inr h2)⟩
    obtain ⟨h1, h2, h3, _, h5⟩ := hi
    obtain ⟨hbet, hinv⟩ := h5 hact
    have hb := updateState_balance W H delta keys rnd e
    have hmono := updateState_height_mono W H delta keys rnd e
    have hinv2 := updateState_roundInv W H delta keys rnd e hinv
    have hhc : 0 ≤ (updateState W H delta keys rnd e).state.heightClimbed := le_trans h3 hmono
    refine ⟨by rw [hb.1]; exact h1, by rw [hb.2.1]; exact h2, hhc, ?_, fun _ => ⟨?_, hinv2⟩⟩
    · rw [hinv2.1]
      have : 0 ≤ (updateState W H delta keys rnd e).state.heightClimbed / HEIGHT_PER_MULT :=
        div_nonneg hhc (by norm_num [HEIGHT_PER_MULT])
      linarith
    · rw [hb.2.1]
      exact hbet

lemma runActions_econInv (W H : ℚ) (actions : List Action) (e : Engine)
    (hi : EconInv e.state) : EconInv (runActions W H actions e).state := by
  induction actions generalizing e with
  | nil => exact hi
  | cons a as ih =>
    simp only [runActions, List.foldl_cons]
    apply ih
    cases a with
    | start bet rnd => exact startRound_econInv W H bet rnd e hi
    | cash => exact cashout_econInv e hi
    | tick f => exact updateState_econInv W H f.delta f.keys f.rnd e hi

lemma initial_econInv (W H : ℚ) (e : Engine) (h0 : e.state = (initialEngine W H).state) :
    EconInv e.state := by
  rw [h0]
  refine ⟨by norm_num [initialEngine, START_BALANCE], by norm_num [initialEngine],
    by norm_num [initialEngine], by norm_num [initialEngine], ?_⟩
  intro hm
  have hidle : (initialEngine W H).state.mode = Mode.idle := rfl
  rw [hidle] at hm
  rcases hm with hm | hm <;> exact absurd hm (by decide)

/-! ## Invariants of the economy -/

/-- C14: in every state reached from the initial state (mode idle, balance 1000,
multiplier 1, climbed height 0; any player and platforms) by any sequence of `startRound`
(any bet), `cashout` and ticks (any elapsed time, keys and draws), the balance and the
climbed height are non-negative and the multiplier is at least 1. -/
theorem economy_bounds (W H : ℚ) (e0 : Engine) (actions : List Action)
    (h0 : e0.state = (initialEngine W H).state) :
    0 ≤ (runActions W H actions e0).state.balance ∧
    0 ≤ (runActions W H actions e0).state.heightClimbed ∧
    1 ≤ (runActions W H actions e0).state.multiplier := by
  obtain ⟨h1, _, h3, h4, _⟩ := runActions_econInv W H actions e0 (initial_econInv W H e0 h0)
  exact ⟨h1, h3, h4⟩

/-- Witness of C14: a bet of 50, a tick, a cash-out and a bet of 2000 from the loaded
engine. -/
theorem economy_bounds_witness :
    0 ≤ (runActions 400 600
      [Action.start (some 50) halfDraws, Action.tick stillFrame, Action.cash,
        Action.start (some 2000) halfDraws]
      (loadedEngine 400 600 halfDraws)).state.balance ∧
    0 ≤ (runActions 400 600
      [Action.start (some 50) halfDraws, Action.tick stillFrame, Action.cash,
        Action.start (some 2000) halfDraws]
      (loadedEngine 400 600 halfDraws)).state.heightClimbed ∧
    1 ≤ (runActions 400 600
      [Action.start (some 50) halfDraws, Action.tick stillFrame, Action.cash,
        Action.start (some 2000) halfDraws]
      (loadedEngine 400 600 halfDraws)).state.multiplier :=
  economy_bounds 400 600 (loadedEngine 400 600 halfDraws) _ rfl

lemma loaded_start_tick_state :
    (runActions 400 600 [Action.start (some 50) halfDraws, Action.tick stillFrame]
      (loadedEngine 400 600 halfDraws)).state.mode = Mode.playing ∧
    (runActions 400 600 [Action.start (some 50) halfDraws, Action.tick stillFrame]
      (loadedEngine 400 600 halfDraws)).state.crashArmed = false := by
  simp only [runActions, List.foldl_cons, List.foldl_nil, step]
  rw [startRound_accepted 400 600 halfDraws (loadedEngine 400 600 halfDraws) 50 (by norm_num)
    (by norm_num [loadedEngine, initialEngine, START_BALANCE])]
  simp only [updateState, stillFrame, movePlayer, scrollAndArm, handleCollision, resetPlayer]
  norm_num [JUMP_VELOCITY, GRAVITY, endRoundLoss, PLAYER_W, HEIGHT_PER_MULT, MOVE_SPEED,
    halfDraws, sampleCrashMultiplier]

/-- C16: in every run from the initial state, whenever `cashout` is accepted (mode playing,
crash not armed) the multiplier satisfies `1 ≤ multiplier < crashMult`, the bet is positive,
and the payout `bet * multiplier` that `cashout` adds to the balance satisfies
`bet ≤ payout < bet * crashMult`. -/
theorem cashout_below_crash (W H : ℚ) (e0 : Engine) (actions : List Action)
    (h0 : e0.state = (initialEngine W H).state)
    (hm : (runActions W H actions e0).state.mode = Mode.playing)
    (ha : (runActions W H actions e0).state.crashArmed = false) :
    1 ≤ (runActions W H actions e0).state.multiplier ∧
    (runActions W H actions e0).state.multiplier
      < (runActions W H actions e0).state.crashMult ∧
    0 < (runActions W H actions e0).state.bet ∧
    (cashout (runActions W H actions e0)).state.balance =
      (runActions W H actions e0).state.balance +
        (runActions W H actions e0).state.bet * (runActions W H actions e0).state.multiplier ∧
    (runActions W H actions e0).state.bet ≤
      (runActions W H actions e0).state.bet * (runActions W H actions e0).state.multiplier ∧
    (runActions W H actions e0).state.bet * (runActions W H actions e0).state.multiplier <
      (runActions W H actions e0).state.bet * (runActions W H actions e0).state.crashMult := by
  obtain ⟨_, _, _, h4, h5⟩ := runActions_econInv W H actions e0 (initial_econInv W H e0 h0)
  obtain ⟨hbet, _, harm⟩ := h5 (Or.inl hm)
  have hlt : (runActions W H actions e0).state.multiplier
      < (runActions W H actions e0).state.crashMult := by
    by_contra hn
    have := harm.mpr (not_lt.mp hn)
    rw [ha] at this
    exact absurd this (by decide)
  refine ⟨h4, hlt, hbet, ?_, ?_, ?_⟩
  · unfold cashout
    rw [if_neg]
    rintro (h | h)
    · exact h hm
    · rw [ha] at h
      exact absurd h (by decide)
  · nlinarith
  · exact mul_lt_mul_of_pos_left hlt hbet

/-- Witness of C16: after a bet of 50 and one tick from the loaded engine the mode is
playing and the crash is not armed, so a cash-out there pays at least the bet and less than
`bet * crashMult`. -/
theorem cashout_below_crash_witness :
    (runActions 400 600 [Action.start (some 50) halfDraws, Action.tick stillFrame]
      (loadedEngine 400 600 halfDraws)).state.mode = Mode.playing ∧
    (runActions 400 600 [Action.start (some 50) halfDraws, Action.tick stillFrame]
      (loadedEngine 400 600 halfDraws)).state.crashArmed = false ∧
    1 ≤ (runActions 400 600 [Action.start (some 50) halfDraws, Action.tick stillFrame]
      (loadedEngine 400 600 halfDraws)).state.multiplier ∧
    (runActions 400 600 [Action.start (some 50) halfDraws, Action.tick stillFrame]
      (loadedEngine 400 600 halfDraws)).state.multiplier <
      (runActions 400 600 [Action.start (some 50) halfDraws, Action.tick stillFrame]
        (loadedEngine 400 600 halfDraws)).state.crashMult :=
  ⟨loaded_start_tick_state.1, loaded_start_tick_state.2,
    (cashout_below_crash 400 600 (loadedEngine 400 600 halfDraws)
      [Action.start (some 50) halfDraws, Action.tick stillFrame] rfl
      loaded_start_tick_state.1 loaded_start_tick_state.2).1,
    (cashout_below_crash 400 600 (loadedEngine 400 600 halfDraws)
      [Action.start (some 50) halfDraws, Action.tick stillFrame] rfl
      loaded_start_tick_state.1 loaded_start_tick_state.2).2.1⟩

/-! ## Lemmas on the player through the tick -/

lemma handleCollisionLoop_player (prevY : ℚ) (s : State) (pl : Player) (ps : List Platform) :
    (handleCollisionLoop prevY s pl ps).2.1 = pl ∨
    (handleCollisionLoop prevY s pl ps).2.1 = { pl with vy := 2 } ∨
    (handleCollisionLoop prevY s pl ps).2.1 = { pl with vy := JUMP_VELOCITY } := by
  induction ps with
  | nil => exact Or.inl rfl
  | cons p ps ih =>
    rw [handleCollisionLoop_cons]
    split_ifs
    · exact Or.inr (Or.inl rfl)
    · exact Or.inr (Or.inr rfl)
    · exact ih

lemma handleCollision_player (prevY : ℚ) (e : Engine) :
    (handleCollision prevY e).player.x = e.player.x ∧
    (handleCollision prevY e).player.y = e.player.y ∧
    (handleCollision prevY e).player.vx = e.player.vx := by
  unfold handleCollision
  split_ifs
  · exact ⟨rfl, rfl, rfl⟩
  · rcases handleCollisionLoop_player prevY e.state e.player e.platforms with h | h | h <;>
      simp [h]

lemma scrollAndArm_player_x (H : ℚ) (e : Engine) :
    (scrollAndArm H e).player.x = e.player.x ∧ (scrollAndArm H e).player.vy = e.player.vy := by
  by_cases hm : e.state.mode = Mode.playing
  · by_cases hs : e.player.y < H * (3 / 10) ∧ e.player.vy < 0
    · rw [(scrollAndArm_scroll H e hm hs).1]
      exact ⟨rfl, rfl⟩
    · rw [(scrollAndArm_noscroll H e hm hs).1]
      exact ⟨rfl, rfl⟩
  · rw [scrollAndArm_not_playing H e hm]
    exact ⟨rfl, rfl⟩

lemma updateState_player_x (W H delta : ℚ) (keys : Keys) (rnd : ℕ → ℚ) (e : Engine)
    (h : e.state.mode = Mode.playing ∨ e.state.mode = Mode.crashing) :
    (updateState W H delta keys rnd e).player.x = (movePlayer W delta keys e.player).x := by
  rw [updateState_player W H delta keys rnd e h]
  unfold afterCollision afterScroll
  rw [(handleCollision_player _ _).1, (scrollAndArm_player_x _ _).1]
  rfl

lemma updateState_player_y (W H delta : ℚ) (keys : Keys) (rnd : ℕ → ℚ) (e : Engine)
    (h : e.state.mode = Mode.playing ∨ e.state.mode = Mode.crashing) :
    (updateState W H delta keys rnd e).player.y = (afterScroll W H delta keys e).player.y := by
  rw [updateState_player W H delta keys rnd e h]
  unfold afterCollision
  rw [(handleCollision_player _ _).2.1]

lemma updateState_heightClimbed (W H delta : ℚ) (keys : Keys) (rnd : ℕ → ℚ) (e : Engine)
    (h : e.state.mode = Mode.playing ∨ e.state.mode = Mode.crashing) :
    (updateState W H delta keys rnd e).state.heightClimbed =
      (afterScroll W H delta keys e).state.heightClimbed := by
  have hn : ¬ (e.state.mode ≠ Mode.playing ∧ e.state.mode ≠ Mode.crashing) := by
    rintro ⟨h1, h2⟩
    rcases h with h | h
    · exact h1 h
    · exact h2 h
  exact (updateState_sameRound W H delta keys rnd e hn).2.2.2.1

lemma movePlayer_x_wrap (W delta : ℚ) (keys : Keys) (pl : Player) (hW : 0 ≤ W) :
    -PLAYER_W ≤ (movePlayer W delta keys pl).x ∧ (movePlayer W delta keys pl).x ≤ W ∧
    (pl.x + (movePlayer W delta keys pl).vx * (delta / (1667 / 100)) > W →
      (movePlayer W delta keys pl).x = -PLAYER_W) ∧
    (pl.x + (movePlayer W delta keys pl).vx * (delta / (1667 / 100)) < -PLAYER_W →
      (movePlayer W delta keys pl).x = W) := by
  have hP : PLAYER_W = 30 := rfl
  simp only [movePlayer]
  generalize (if keys.left = true then -MOVE_SPEED
    else if keys.right = true then MOVE_SPEED else 0) = vx
  refine ⟨?_, ?_, ?_, ?_⟩
  · split_ifs <;> linarith
  · split_ifs <;> linarith
  · intro h
    split_ifs <;> first | rfl | (exfalso; linarith)
  · intro h
    split_ifs <;> first | rfl | (exfalso; linarith)

/-! ## Horizontal wrap -/

/-- C15: for `W ≥ 0`, after a tick in playing or crashing mode `-PLAYER_W ≤ player.x ≤ W`;
a player whose new x exceeds `W` is placed at `-PLAYER_W`, and one whose new x is below
`-PLAYER_W` is placed at `W`. The new x is the old one plus `±MOVE_SPEED` or `0`, by the
keys, times `delta / 16.67`. -/
theorem player_x_wraps (W H delta : ℚ) (keys : Keys) (rnd : ℕ → ℚ) (e : Engine)
    (hW : 0 ≤ W) (hm : e.state.mode = Mode.playing ∨ e.state.mode = Mode.crashing) :
    -PLAYER_W ≤ (updateState W H delta keys rnd e).player.x ∧
    (updateState W H delta keys rnd e).player.x ≤ W ∧
    (e.player.x +
        (if keys.left = true then -MOVE_SPEED else if keys.right = true then MOVE_SPEED else 0)
          * (delta / (1667 / 100)) > W →
      (updateState W H delta keys rnd e).player.x = -PLAYER_W) ∧
    (e.player.x +
        (if keys.left = true then -MOVE_SPEED else if keys.right = true then MOVE_SPEED else 0)
          * (delta / (1667 / 100)) < -PLAYER_W →
      (updateState W H delta keys rnd e).player.x = W) ∧
    PLAYER_W = 30 := by
  rw [updateState_player_x W H delta keys rnd e hm]
  obtain ⟨h1, h2, h3, h4⟩ := movePlayer_x_wrap W delta keys e.player hW
  exact ⟨h1, h2, h3, h4, rfl⟩

/-- Witness of C15: on a 400 wide canvas a player at `x = 405` with no key held is moved to
`x = -30` by the tick. -/
theorem player_x_wraps_witness :
    offRightEngine.player.x = 400 + 5 ∧
    (updateState 400 600 (1667 / 100) stillFrame.keys halfDraws offRightEngine).player.x
      = -30 := by
  have h := (player_x_wraps 400 600 (1667 / 100) stillFrame.keys halfDraws offRightEngine
    (by norm_num) (Or.inl rfl)).2.2.1
    (by norm_num [stillFrame, offRightEngine])
  refine ⟨by norm_num [offRightEngine], ?_⟩
  rw [h]
  norm_num [PLAYER_W]

/-! ## Camera scroll -/

lemma afterScroll_crashing (W H delta : ℚ) (keys : Keys) (e : Engine)
    (hm : e.state.mode = Mode.crashing) :
    afterScroll W H delta keys e = afterMove W delta keys e := by
  unfold afterScroll
  apply scrollAndArm_not_playing
  show e.state.mode ≠ Mode.playing
  rw [hm]
  decide

lemma afterCollision_of_not_falling (W H delta : ℚ) (keys : Keys) (e : Engine)
    (h : e.state.mode ≠ Mode.playing ∨ (movePlayer W delta keys e.player).vy ≤ 0) :
    afterCollision W H delta keys e = afterScroll W H delta keys e := by
  unfold afterCollision
  apply handleCollision_inactive
  rcases h with h | h
  · left
    rw [afterScroll_mode]
    exact h
  · right
    unfold afterScroll
    rw [(scrollAndArm_player_x H (afterMove W delta keys e)).2]
    exact h

/-- C18, amended: the camera scroll of a playing-mode tick. With `y1`, `vy1` the player's y
and vy after integration and `T = 0.3 * H`: if `y1 < T` and `vy1 < 0` then the shift `T - y1`
is positive, the player's y becomes `T`, the climbed height grows by the shift and every
platform's y is replaced by its sum with that same shift before recycling; otherwise, and in
every crashing-mode tick, the scroll step changes neither the player, nor the climbed
height, nor any platform. -/
theorem camera_scroll (W H delta : ℚ) (keys : Keys) (rnd : ℕ → ℚ) (e : Engine) :
    (e.state.mode = Mode.playing →
      ((movePlayer W delta keys e.player).y < H * (3 / 10) ∧
        (movePlayer W delta keys e.player).vy < 0) →
      0 < H * (3 / 10) - (movePlayer W delta keys e.player).y ∧
      (afterScroll W H delta keys e).player.y = H * (3 / 10) ∧
      (afterScroll W H delta keys e).state.heightClimbed =
        e.state.heightClimbed + (H * (3 / 10) - (movePlayer W delta keys e.player).y) ∧
      (afterScroll W H delta keys e).platforms =
        e.platforms.map (fun p =>
          { p with y := p.y + (H * (3 / 10) - (movePlayer W delta keys e.player).y) }) ∧
      (updateState W H delta keys rnd e).player.y = H * (3 / 10) ∧
      (updateState W H delta keys rnd e).state.heightClimbed =
        e.state.heightClimbed + (H * (3 / 10) - (movePlayer W delta keys e.player).y) ∧
      (updateState W H delta keys rnd e).platforms =
        updatePlatforms W H rnd (e.platforms.map (fun p =>
          { p with y := p.y + (H * (3 / 10) - (movePlayer W delta keys e.player).y) }))) ∧
    (e.state.mode = Mode.playing →
      ¬ ((movePlayer W delta keys e.player).y < H * (3 / 10) ∧
        (movePlayer W delta keys e.player).vy < 0) →
      (afterScroll W H delta keys e).player = movePlayer W delta keys e.player ∧
      (afterScroll W H delta keys e).platforms = e.platforms ∧
      (afterScroll W H delta keys e).state.heightClimbed = e.state.heightClimbed ∧
      (updateState W H delta keys rnd e).player.y = (movePlayer W delta keys e.player).y ∧
      (updateState W H delta keys rnd e).state.heightClimbed = e.state.heightClimbed) ∧
    (e.state.mode = Mode.crashing →
      afterScroll W H delta keys e = afterMove W delta keys e ∧
      (updateState W H delta keys rnd e).player.y = (movePlayer W delta keys e.player).y ∧
      (updateState W H delta keys rnd e).state.heightClimbed = e.state.heightClimbed ∧
      (updateState W H delta keys rnd e).platforms = updatePlatforms W H rnd e.platforms) := by
  refine ⟨?_, ?_, ?_⟩
  · intro hm hs
    obtain ⟨h1, h2, h3⟩ := scrollAndArm_scroll H (afterMove W delta keys e) hm hs
    have hpl : (afterScroll W H delta keys e).platforms =
        e.platforms.map (fun p =>
          { p with y := p.y + (H * (3 / 10) - (movePlayer W delta keys e.player).y) }) := h2
    refine ⟨by linarith [hs.1], ?_, h3, hpl, ?_, ?_, ?_⟩
    · show (scrollAndArm H (afterMove W delta keys e)).player.y = H * (3 / 10)
      rw [h1]
    · rw [updateState_player_y W H delta keys rnd e (Or.inl hm)]
      show (scrollAndArm H (afterMove W delta keys e)).player.y = H * (3 / 10)
      rw [h1]
    · rw [updateState_heightClimbed W H delta keys rnd e (Or.inl hm)]
      exact h3
    · rw [updateState_platforms W H delta keys rnd e (Or.inl hm),
        afterCollision_of_not_falling W H delta keys e (Or.inr (le_of_lt hs.2)), hpl]
  · intro hm hs
    obtain ⟨h1, h2, h3⟩ := scrollAndArm_noscroll H (afterMove W delta keys e) hm hs
    refine ⟨h1, h2, h3, ?_, ?_⟩
    · rw [updateState_player_y W H delta keys rnd e (Or.inl hm)]
      show (scrollAndArm H (afterMove W delta keys e)).player.y = _
      rw [h1]
      rfl
    · rw [updateState_heightClimbed W H delta keys rnd e (Or.inl hm)]
      exact h3
  · intro hm
    have hs := afterScroll_crashing W H delta keys e hm
    have hnp : e.state.mode ≠ Mode.playing := by rw [hm]; decide
    refine ⟨hs, ?_, ?_, ?_⟩
    · rw [updateState_player_y W H delta keys rnd e (Or.inr hm), hs]
      rfl
    · rw [updateState_heightClimbed W H delta keys rnd e (Or.inr hm), hs]
      rfl
    · rw [updateState_platforms W H delta keys rnd e (Or.inr hm),
        afterCollision_of_not_falling W H delta keys e (Or.inl hnp), hs]
      rfl

lemma scrollingEngine_scrolls :
    (movePlayer 400 (1667 / 100) stillFrame.keys scrollingEngine.player).y < 600 * (3 / 10) ∧
    (movePlayer 400 (1667 / 100) stillFrame.keys scrollingEngine.player).vy < 0 := by
  norm_num [movePlayer, scrollingEngine, stillFrame, GRAVITY, MOVE_SPEED, PLAYER_W]

/-- Witness of C18: on a 600 high canvas the player rising from y = 182 at vy = -5 would
reach 177.35; the tick puts it at the line 180 and adds the shift 2.65 to the climbed
height 300. -/
theorem camera_scroll_witness :
    scrollingEngine.state.mode = Mode.playing ∧
    (updateState 400 600 (1667 / 100) stillFrame.keys halfDraws scrollingEngine).player.y
      = 180 ∧
    (updateState 400 600 (1667 / 100) stillFrame.keys halfDraws
      scrollingEngine).state.heightClimbed = 300 + 265 / 100 := by
  have h := (camera_scroll 400 600 (1667 / 100) stillFrame.keys halfDraws scrollingEngine).1
    rfl scrollingEngine_scrolls
  refine ⟨rfl, ?_, ?_⟩
  · rw [h.2.2.2.2.1]
    norm_num
  · rw [h.2.2.2.2.2.1]
    norm_num [movePlayer, scrollingEngine, playingEngine, stillFrame, GRAVITY, MOVE_SPEED,
      PLAYER_W]

/-! ## Scroll and landing in one tick -/

lemma afterScroll_of_falling (W H delta : ℚ) (keys : Keys) (e : Engine)
    (hv : 0 < (movePlayer W delta keys e.player).vy) :
    (afterScroll W H delta keys e).platforms = e.platforms ∧
    (afterScroll W H delta keys e).player = movePlayer W delta keys e.player ∧
    (afterScroll W H delta keys e).state.heightClimbed = e.state.heightClimbed := by
  by_cases hm : e.state.mode = Mode.playing
  · have hs : ¬ ((movePlayer W delta keys e.player).y < H * (3 / 10) ∧
        (movePlayer W delta keys e.player).vy < 0) := by
      rintro ⟨_, h2⟩
      linarith
    obtain ⟨h1, h2, h3⟩ := scrollAndArm_noscroll H (afterMove W delta keys e) hm hs
    exact ⟨h2, h1, h3⟩
  · unfold afterScroll
    rw [scrollAndArm_not_playing H (afterMove W delta keys e) hm]
    exact ⟨rfl, rfl, rfl⟩

lemma scrollingEngine_tick_height :
    (updateState 400 600 (1667 / 100) stillFrame.keys halfDraws
      scrollingEngine).state.heightClimbed = 300 + 265 / 100 := by
  rw [updateState_heightClimbed 400 600 (1667 / 100) stillFrame.keys halfDraws scrollingEngine
    (Or.inl rfl)]
  have h := (scrollAndArm_scroll 600 (afterMove 400 (1667 / 100) stillFrame.keys scrollingEngine)
    rfl scrollingEngine_scrolls).2.2
  unfold afterScroll
  rw [h]
  norm_num [afterMove, movePlayer, scrollingEngine, playingEngine, stillFrame, GRAVITY,
    MOVE_SPEED, PLAYER_W]

lemma fallingEngine_bounces :
    (afterCollision 400 600 (1667 / 100) stillFrame.keys fallingEngine).player.vy = -10 ∧
    (afterScroll 400 600 (1667 / 100) stillFrame.keys fallingEngine).player.vy = 535 / 100 := by
  simp only [afterCollision, afterScroll, afterMove, scrollAndArm, handleCollision,
    handleCollisionLoop, movePlayer, fallingEngine, playingEngine, stillFrame]
  norm_num [JUMP_VELOCITY, GRAVITY, PLAYER_W, PLAYER_H, PLATFORM_W, HEIGHT_PER_MULT,
    MOVE_SPEED, handleCollisionLoop]

/-- C20: scroll and landing exclude each other within one tick. If the tick raises the
climbed height then vy after gravity is negative and `handleCollision` leaves the engine as
the scroll step left it; if `handleCollision` changes the engine then vy after gravity is
positive, and the scroll step has changed neither the climbed height, nor the player, nor
any platform; in general, whenever vy after gravity is positive the platforms tested by
`handleCollision` are the ones of the start of the tick. -/
theorem scroll_excludes_landing (W H delta : ℚ) (keys : Keys) (rnd : ℕ → ℚ) (e : Engine) :
    (e.state.heightClimbed < (updateState W H delta keys rnd e).state.heightClimbed →
      (movePlayer W delta keys e.player).vy < 0 ∧
      afterCollision W H delta keys e = afterScroll W H delta keys e) ∧
    (afterCollision W H delta keys e ≠ afterScroll W H delta keys e →
      0 < (movePlayer W delta keys e.player).vy ∧
      (afterScroll W H delta keys e).state.heightClimbed = e.state.heightClimbed ∧
      (afterScroll W H delta keys e).platforms = e.platforms ∧
      (afterScroll W H delta keys e).player = movePlayer W delta keys e.player ∧
      (updateState W H delta keys rnd e).state.heightClimbed = e.state.heightClimbed) ∧
    (0 < (movePlayer W delta keys e.player).vy →
      (afterScroll W H delta keys e).platforms = e.platforms ∧
      (afterScroll W H delta keys e).player = movePlayer W delta keys e.player ∧
      (afterScroll W H delta keys e).state.heightClimbed = e.state.heightClimbed) := by
  refine ⟨?_, ?_, afterScroll_of_falling W H delta keys e⟩
  · intro hlt
    by_cases hact : e.state.mode = Mode.playing ∨ e.state.mode = Mode.crashing
    · rw [updateState_heightClimbed W H delta keys rnd e hact] at hlt
      have hv : (movePlayer W delta keys e.player).vy < 0 := by
        by_contra hn
        by_cases hm : e.state.mode = Mode.playing
        · have hs : ¬ ((movePlayer W delta keys e.player).y < H * (3 / 10) ∧
              (movePlayer W delta keys e.player).vy < 0) := fun h => hn h.2
          have h3 := (scrollAndArm_noscroll H (afterMove W delta keys e) hm hs).2.2
          unfold afterScroll at hlt
          rw [h3] at hlt
          exact lt_irrefl _ hlt
        · unfold afterScroll at hlt
          rw [scrollAndArm_not_playing H (afterMove W delta keys e) hm] at hlt
          exact lt_irrefl _ hlt
      exact ⟨hv, afterCollision_of_not_falling W H delta keys e (Or.inr (le_of_lt hv))⟩
    · rw [updateState_inactive W H delta keys rnd e
        ⟨fun h1 => hact (Or.inl h1), fun h2 => hact (Or.inr h2)⟩] at hlt
      exact absurd hlt (lt_irrefl _)
  · intro hne
    have hm : e.state.mode = Mode.playing := by
      by_contra hn
      exact hne (afterCollision_of_not_falling W H delta keys e (Or.inl hn))
    have hv : 0 < (movePlayer W delta keys e.player).vy := by
      by_contra hn
      exact hne (afterCollision_of_not_falling W H delta keys e (Or.inr (not_lt.mp hn)))
    obtain ⟨h1, h2, h3⟩ := afterScroll_of_falling W H delta keys e hv
    refine ⟨hv, h3, h1, h2, ?_⟩
    rw [updateState_heightClimbed W H delta keys rnd e (Or.inl hm)]
    exact h3

/-- Witness of C20: the tick of the scrolling example raises the climbed height and its
collision step changes nothing; the tick of the falling example bounces the player and its
scroll step leaves the climbed height and the platforms alone. -/
theorem scroll_excludes_landing_witness :
    scrollingEngine.state.heightClimbed <
      (updateState 400 600 (1667 / 100) stillFrame.keys halfDraws
        scrollingEngine).state.heightClimbed ∧
    afterCollision 400 600 (1667 / 100) stillFrame.keys scrollingEngine =
      afterScroll 400 600 (1667 / 100) stillFrame.keys scrollingEngine ∧
    afterCollision 400 600 (1667 / 100) stillFrame.keys fallingEngine ≠
      afterScroll 400 600 (1667 / 100) stillFrame.keys fallingEngine ∧
    (afterScroll 400 600 (1667 / 100) stillFrame.keys fallingEngine).state.heightClimbed
      = fallingEngine.state.heightClimbed ∧
    (afterScroll 400 600 (1667 / 100) stillFrame.keys fallingEngine).platforms
      = fallingEngine.platforms := by
  have h1 : scrollingEngine.state.heightClimbed <
      (updateState 400 600 (1667 / 100) stillFrame.keys halfDraws
        scrollingEngine).state.heightClimbed := by
    rw [scrollingEngine_tick_height]
    norm_num [scrollingEngine, playingEngine]
  have h2 : afterCollision 400 600 (1667 / 100) stillFrame.keys fallingEngine ≠
      afterScroll 400 600 (1667 / 100) stillFrame.keys fallingEngine := by
    intro heq
    have hb := fallingEngine_bounces
    rw [heq, hb.2] at hb
    norm_num at hb
  have h3 := (scroll_excludes_landing 400 600 (1667 / 100) stillFrame.keys halfDraws
    fallingEngine).2.1 h2
  exact ⟨h1,
    ((scroll_excludes_landing 400 600 (1667 / 100) stillFrame.keys halfDraws
      scrollingEngine).1 h1).2,
    h2, h3.2.1, h3.2.2.1⟩

/-! ## Lemmas on binary64 rounding -/

lemma binadeUp_eq (k : ℕ) : ∀ (n : ℕ) (x : ℚ), k ≤ n → (2 : ℚ) ^ k ≤ x → x < 2 ^ (k + 1) →
    binadeUp n x = k := by
  induction k with
  | zero =>
    intro n x _ _ h2
    cases n with
    | zero => rfl
    | succ m =>
      have h : x < 2 := by simpa using h2
      simp [binadeUp, h]
  | succ k ih =>
    intro n x hn h1 h2
    cases n with
    | zero => omega
    | succ m =>
      have hge : ¬ x < 2 := by
        have : (2 : ℚ) ≤ 2 ^ (k + 1) := by
          calc (2 : ℚ) = 2 ^ 1 := by norm_num
            _ ≤ 2 ^ (k + 1) := pow_le_pow_right₀ (by norm_num) (by omega)
        linarith
      have h3 : (2 : ℚ) ^ k ≤ x / 2 := by
        rw [le_div_iff₀ (by norm_num : (0 : ℚ) < 2)]
        calc (2 : ℚ) ^ k * 2 = 2 ^ (k + 1) := by ring
          _ ≤ x := h1
      have h4 : x / 2 < 2 ^ (k + 1) := by
        rw [div_lt_iff₀ (by norm_num : (0 : ℚ) < 2)]
        calc x < 2 ^ (k + 1 + 1) := h2
          _ = 2 ^ (k + 1) * 2 := by ring
      simp only [binadeUp, if_neg hge]
      rw [ih m (x / 2) (by omega) h3 h4]
      push_cast
      ring

lemma binadeDown_eq (k : ℕ) : ∀ (n : ℕ) (x : ℚ), k ≤ n → 1 / (2 : ℚ) ^ k ≤ x →
    x < 2 / 2 ^ k → binadeDown n x = -(k : ℤ) := by
  induction k with
  | zero =>
    intro n x _ h1 _
    cases n with
    | zero => rfl
    | succ m =>
      have h : 1 ≤ x := by simpa using h1
      simp [binadeDown, h]
  | succ k ih =>
    intro n x hn h1 h2
    cases n with
    | zero => omega
    | succ m =>
      have hpos : (0 : ℚ) < 2 ^ k := by positivity
      have hlt : ¬ 1 ≤ x := by
        have : (2 : ℚ) / 2 ^ (k + 1) ≤ 1 := by
          rw [div_le_one (by positivity)]
          calc (2 : ℚ) = 2 ^ 1 := by norm_num
            _ ≤ 2 ^ (k + 1) := pow_le_pow_right₀ (by norm_num) (by omega)
        linarith
      have h3 : 1 / (2 : ℚ) ^ k ≤ x * 2 := by
        have : 1 / (2 : ℚ) ^ k = 1 / 2 ^ (k + 1) * 2 := by
          field_simp
          ring
        rw [this]
        linarith
      have h4 : x * 2 < 2 / 2 ^ k := by
        have : 2 / (2 : ℚ) ^ k = 2 / 2 ^ (k + 1) * 2 := by
          field_simp
          ring
        rw [this]
        linarith
      simp only [binadeDown, if_neg hlt]
      rw [ih m (x * 2) (by omega) h3 h4]
      push_cast
      ring

lemma binade_of_large (x : ℚ) (k : ℕ) (hk : k ≤ 1023) (h1 : (2 : ℚ) ^ k ≤ |x|)
    (h2 : |x| < 2 ^ (k + 1)) : binade x = k := by
  have h : 1 ≤ |x| := le_trans (one_le_pow₀ (by norm_num)) h1
  rw [binade, if_pos h]
  exact binadeUp_eq k 1023 |x| hk h1 h2

lemma binade_of_small (x : ℚ) (k : ℕ) (hk : k ≤ 1022) (hk1 : 1 ≤ k)
    (h1 : 1 / (2 : ℚ) ^ k ≤ |x|) (h2 : |x| < 2 / 2 ^ k) : binade x = -(k : ℤ) := by
  have h : ¬ 1 ≤ |x| := by
    have : (2 : ℚ) / 2 ^ k ≤ 1 := by
      rw [div_le_one (by positivity)]
      calc (2 : ℚ) = 2 ^ 1 := by norm_num
        _ ≤ 2 ^ k := pow_le_pow_right₀ (by norm_num) hk1
    linarith
  rw [binade, if_neg h]
  exact binadeDown_eq k 1022 |x| hk h1 h2


lemma binadeUp_le (n : ℕ) : ∀ (x : ℚ) (k : ℕ), x < 2 ^ (k + 1) → binadeUp n x ≤ k := by
  induction n with
  | zero =>
    intro x k _
    simp [binadeUp]
  | succ n ih =>
    intro x k h
    by_cases h2 : x < 2
    · simp [binadeUp, h2]
    · simp only [binadeUp, if_neg h2]
      cases k with
      | zero => exact absurd (by simpa using h) h2
      | succ j =>
        have h3 : x / 2 < 2 ^ (j + 1) := by
          rw [div_lt_iff₀ (by norm_num : (0 : ℚ) < 2)]
          calc x < 2 ^ (j + 1 + 1) := h
            _ = 2 ^ (j + 1) * 2 := by ring
        have := ih (x / 2) j h3
        push_cast
        omega

lemma binadeDown_nonpos (n : ℕ) : ∀ x : ℚ, binadeDown n x ≤ 0 := by
  induction n with
  | zero =>
    intro x
    simp [binadeDown]
  | succ n ih =>
    intro x
    by_cases h : 1 ≤ x
    · simp [binadeDown, h]
    · simp only [binadeDown, if_neg h]
      have := ih (x * 2)
      omega

lemma binade_le (x : ℚ) (k : ℕ) (h : |x| < 2 ^ (k + 1)) : binade x ≤ k := by
  unfold binade
  split_ifs
  · exact binadeUp_le 1023 |x| k h
  · exact le_trans (binadeDown_nonpos 1022 |x|) (by positivity)


lemma roundHalfEven_le (q : ℚ) (N : ℤ) (h : q ≤ N) : roundHalfEven q ≤ N := by
  have hf : (⌊q⌋ : ℚ) ≤ q := Int.floor_le q
  have h1 : ⌊q⌋ ≤ N := by
    have : (⌊q⌋ : ℚ) ≤ N := le_trans hf h
    exact_mod_cast this
  unfold roundHalfEven
  by_cases hlt : q - ⌊q⌋ < 1 / 2
  · rw [if_pos hlt]
    exact h1
  · have h2 : ⌊q⌋ + 1 ≤ N := by
      have : (⌊q⌋ : ℚ) < N := by linarith
      have h3 : ⌊q⌋ < N := by exact_mod_cast this
      omega
    rw [if_neg hlt]
    split_ifs <;> omega

lemma roundHalfEven_ge (q : ℚ) (N : ℤ) (h : (N : ℚ) ≤ q) : N ≤ roundHalfEven q := by
  have h1 : N ≤ ⌊q⌋ := Int.le_floor.mpr h
  unfold roundHalfEven
  split_ifs <;> omega

lemma roundToDouble_le (x : ℚ) (N : ℤ) (h : x ≤ N * 2 ^ (binade x - 52)) (h0 : 0 ≤ N) :
    roundToDouble x ≤ N * 2 ^ (binade x - 52) := by
  have hu : (0 : ℚ) < 2 ^ (binade x - 52) := by positivity
  unfold roundToDouble
  split_ifs
  · exact mul_nonneg (by exact_mod_cast h0) (le_of_lt hu)
  · have hq : x / 2 ^ (binade x - 52) ≤ N := by
      rw [div_le_iff₀ hu]
      exact h
    have := roundHalfEven_le _ N hq
    have hc : (roundHalfEven (x / 2 ^ (binade x - 52)) : ℚ) ≤ N := by exact_mod_cast this
    exact mul_le_mul_of_nonneg_right hc (le_of_lt hu)

lemma roundToDouble_ge (x : ℚ) (N : ℤ) (h : (N : ℚ) * 2 ^ (binade x - 52) ≤ x) (h0 : N ≤ 0) :
    (N : ℚ) * 2 ^ (binade x - 52) ≤ roundToDouble x := by
  have hu : (0 : ℚ) < 2 ^ (binade x - 52) := by positivity
  unfold roundToDouble
  split_ifs
  · exact mul_nonpos_of_nonpos_of_nonneg (by exact_mod_cast h0) (le_of_lt hu)
  · have hq : (N : ℚ) ≤ x / 2 ^ (binade x - 52) := by
      rw [le_div_iff₀ hu]
      exact h
    have := roundHalfEven_ge _ N hq
    have hc : (N : ℚ) ≤ roundHalfEven (x / 2 ^ (binade x - 52)) := by exact_mod_cast this
    exact mul_le_mul_of_nonneg_right hc (le_of_lt hu)

lemma roundToDouble_ge_of_pos (x : ℚ) (N : ℤ) (hx : x ≠ 0)
    (h : (N : ℚ) * 2 ^ (binade x - 52) ≤ x) :
    (N : ℚ) * 2 ^ (binade x - 52) ≤ roundToDouble x := by
  have hu : (0 : ℚ) < 2 ^ (binade x - 52) := by positivity
  unfold roundToDouble
  rw [if_neg hx]
  have hq : (N : ℚ) ≤ x / 2 ^ (binade x - 52) := by
    rw [le_div_iff₀ hu]
    exact h
  have := roundHalfEven_ge _ N hq
  have hc : (N : ℚ) ≤ roundHalfEven (x / 2 ^ (binade x - 52)) := by exact_mod_cast this
  exact mul_le_mul_of_nonneg_right hc (le_of_lt hu)

lemma roundToDouble_mul40_bounds (r : ℚ) (h0 : 0 ≤ r) (h1 : r < 1) :
    0 ≤ roundToDouble (r * 40) ∧ roundToDouble (r * 40) ≤ 40 := by
  have hx0 : 0 ≤ r * 40 := by linarith
  have hx1 : r * 40 < 40 := by linarith
  constructor
  · have := roundToDouble_ge (r * 40) 0 (by simpa using hx0) le_rfl
    simpa using this
  · have hb : binade (r * 40) ≤ 5 := by
      have : |r * 40| < 2 ^ (5 + 1) := by
        rw [abs_of_nonneg hx0]
        norm_num
        linarith
      exact_mod_cast binade_le (r * 40) 5 this
    have hnn : 0 ≤ 52 - binade (r * 40) := by omega
    have hgrid : ((40 * 2 ^ (52 - binade (r * 40)).toNat : ℤ) : ℚ) * 2 ^ (binade (r * 40) - 52)
        = 40 := by
      push_cast
      rw [← zpow_natCast, Int.toNat_of_nonneg hnn, mul_assoc, ← zpow_add₀ (by norm_num)]
      simp
    have := roundToDouble_le (r * 40) (40 * 2 ^ (52 - binade (r * 40)).toNat)
      (by rw [hgrid]; linarith) (by positivity)
    rw [hgrid] at this
    exact this

lemma roundToDouble_gap_bounds (y : ℚ) (h0 : 0 ≤ y) (h1 : y ≤ 40) :
    60 ≤ roundToDouble (60 + y) ∧ roundToDouble (60 + y) ≤ 100 := by
  have hne : (60 + y : ℚ) ≠ 0 := by linarith
  by_cases h64 : 60 + y < 64
  · have hb : binade (60 + y) = (5 : ℕ) :=
      binade_of_large _ 5 (by norm_num) (by rw [abs_of_pos (by linarith)]; norm_num; linarith)
        (by rw [abs_of_pos (by linarith)]; norm_num; linarith)
    constructor
    · have := roundToDouble_ge_of_pos (60 + y) (60 * 2 ^ 47) hne
        (by rw [hb]; norm_num; linarith)
      rw [hb] at this
      norm_num at this
      exact this
    · have := roundToDouble_le (60 + y) (100 * 2 ^ 47) (by rw [hb]; norm_num; linarith)
        (by positivity)
      rw [hb] at this
      norm_num at this
      exact this
  · have hb : binade (60 + y) = (6 : ℕ) :=
      binade_of_large _ 6 (by norm_num) (by rw [abs_of_pos (by linarith)]; norm_num; linarith)
        (by rw [abs_of_pos (by linarith)]; norm_num; linarith)
    constructor
    · have := roundToDouble_ge_of_pos (60 + y) (60 * 2 ^ 46) hne
        (by rw [hb]; norm_num; linarith)
      rw [hb] at this
      norm_num at this
      exact this
    · have := roundToDouble_le (60 + y) (100 * 2 ^ 46) (by rw [hb]; norm_num; linarith)
        (by positivity)
      rw [hb] at this
      norm_num at this
      exact this

lemma gapDouble_bounds (r : ℚ) (h0 : 0 ≤ r) (h1 : r < 1) :
    60 ≤ gapDouble r ∧ gapDouble r ≤ 100 := by
  obtain ⟨ha, hb⟩ := roundToDouble_mul40_bounds r h0 h1
  exact roundToDouble_gap_bounds _ ha hb

lemma roundToDouble_of_binade (x : ℚ) (e : ℤ) (hb : binade x = e) :
    roundToDouble x =
      if x = 0 then 0
      else (roundHalfEven (x / (2 : ℚ) ^ (e - 52)) : ℚ) * (2 : ℚ) ^ (e - 52) := by
  rw [roundToDouble, hb]

/-! ## Lemmas on the recycling -/

lemma foldl_min_spec (ps : List Platform) (m0 : ℚ) :
    ps.foldl (fun m q => min m q.y) m0 ≤ m0 ∧
    (∀ q ∈ ps, ps.foldl (fun m q => min m q.y) m0 ≤ q.y) ∧
    (ps.foldl (fun m q => min m q.y) m0 = m0 ∨
      ∃ q ∈ ps, q.y = ps.foldl (fun m q => min m q.y) m0) := by
  induction ps generalizing m0 with
  | nil => exact ⟨le_rfl, fun q hq => absurd hq (List.not_mem_nil q), Or.inl rfl⟩
  | cons p ps ih =>
    obtain ⟨h1, h2, h3⟩ := ih (min m0 p.y)
    simp only [List.foldl_cons]
    refine ⟨le_trans h1 (min_le_left _ _), ?_, ?_⟩
    · intro q hq
      rcases List.mem_cons.mp hq with rfl | hq
      · exact le_trans h1 (min_le_right _ _)
      · exact h2 q hq
    · rcases h3 with h3 | ⟨q, hq, hqy⟩
      · rcases min_choice m0 p.y with hc | hc
        · left
          rw [h3, hc]
        · right
          exact ⟨p, List.mem_cons_self _ _, by rw [h3, hc]⟩
      · right
        exact ⟨q, List.mem_cons_of_mem _ hq, hqy⟩

lemma minY_isTopMost (p : Platform) (ps : List Platform) : IsTopMost (minY p ps) (p :: ps) := by
  obtain ⟨h1, h2, h3⟩ := foldl_min_spec ps p.y
  unfold minY
  constructor
  · rcases h3 with h3 | ⟨q, hq, hqy⟩
    · exact ⟨p, List.mem_cons_self _ _, h3.symm⟩
    · exact ⟨q, List.mem_cons_of_mem _ hq, hqy⟩
  · intro q hq
    rcases List.mem_cons.mp hq with rfl | hq
    · exact h1
    · exact h2 q hq

lemma updatePlatformsLoop_mem (W H : ℚ) (rnd : ℕ → ℚ) (k : ℕ) (t : ℚ) (ps : List Platform) :
    ∀ q ∈ updatePlatformsLoop W H rnd k t ps, q ∈ ps ∨ q.type = PlatformType.normal := by
  induction ps generalizing k t with
  | nil => intro q hq; simp [updatePlatformsLoop] at hq
  | cons p ps ih =>
    intro q hq
    simp only [updatePlatformsLoop] at hq
    split_ifs at hq
    · rcases List.mem_cons.mp hq with rfl | hq
      · exact Or.inr rfl
      · rcases ih _ _ q hq with h | h
        · exact Or.inl (List.mem_cons_of_mem _ h)
        · exact Or.inr h
    · rcases List.mem_cons.mp hq with rfl | hq
      · exact Or.inl (List.mem_cons_self _ _)
      · rcases ih _ _ q hq with h | h
        · exact Or.inl (List.mem_cons_of_mem _ h)
        · exact Or.inr h

lemma updatePlatforms_mem (W H : ℚ) (rnd : ℕ → ℚ) (ps : List Platform) :
    ∀ q ∈ updatePlatforms W H rnd ps, q ∈ ps ∨ q.type = PlatformType.normal := by
  cases ps with
  | nil => intro q hq; simp [updatePlatforms] at hq
  | cons p ps => exact updatePlatformsLoop_mem W H rnd 0 _ (p :: ps)

lemma updatePlatformsLoop_recycle (W H : ℚ) (rnd : ℕ → ℚ) (k : ℕ) (t : ℚ) (p : Platform)
    (ps : List Platform) (h : p.y > H + 60) :
    updatePlatformsLoop W H rnd k t (p :: ps) =
      { p with y := t - (60 + rnd k * 40), x := rnd (k + 1) * (W - PLATFORM_W),
               type := PlatformType.normal } ::
        updatePlatformsLoop W H rnd (k + 2) (t - (60 + rnd k * 40)) ps := by
  simp only [updatePlatformsLoop]
  rw [if_pos h]

lemma updatePlatformsLoop_keep (W H : ℚ) (rnd : ℕ → ℚ) (k : ℕ) (t : ℚ) (p : Platform)
    (ps : List Platform) (h : ¬ p.y > H + 60) :
    updatePlatformsLoop W H rnd k t (p :: ps) = p :: updatePlatformsLoop W H rnd k t ps := by
  simp only [updatePlatformsLoop]
  rw [if_neg h]

lemma isTopMost_push (t g : ℚ) (done ps : List Platform) (p0 p1 : Platform)
    (h : IsTopMost t (done ++ p0 :: ps)) (hy : p1.y = t - g) (hg : 0 ≤ g) :
    IsTopMost (t - g) ((done ++ [p1]) ++ ps) := by
  constructor
  · exact ⟨p1, by simp, hy⟩
  · intro q hq
    simp only [List.append_assoc, List.singleton_append, List.mem_append,
      List.mem_cons] at hq
    rcases hq with hq | rfl | hq
    · have := h.2 q (List.mem_append_left _ hq)
      linarith
    · rw [hy]
    · have := h.2 q (List.mem_append_right _ (List.mem_cons_of_mem _ hq))
      linarith

lemma updatePlatformsLoop_spec (W H : ℚ) (rnd : ℕ → ℚ) (hW : PLATFORM_W < W)
    (hr : ∀ n, 0 ≤ rnd n ∧ rnd n < 1) (orig : List Platform) :
    ∀ (l done : List Platform) (k : ℕ) (t : ℚ),
      IsTopMost t (done ++ l) → (∀ q ∈ orig, t ≤ q.y) →
      ∀ (i : ℕ) (p : Platform), l[i]? = some p →
        ∃ p1, (updatePlatformsLoop W H rnd k t l)[i]? = some p1 ∧
          (p.y ≤ H + 60 → p1 = p) ∧
          (p.y > H + 60 →
            RecycledFrom W orig
              (done ++ ((updatePlatformsLoop W H rnd k t l).take i ++ l.drop i)) p p1) := by
  intro l
  induction l with
  | nil =>
    intro done k t _ _ i p hp
    simp at hp
  | cons p0 ps ih =>
    intro done k t htop hlow i p hp
    have hgap0 : 60 ≤ 60 + rnd k * 40 := by linarith [(hr k).1]
    have hgap1 : 60 + rnd k * 40 < 100 := by linarith [(hr k).2]
    by_cases hrec : p0.y > H + 60
    · rw [updatePlatformsLoop_recycle W H rnd k t p0 ps hrec]
      cases i with
      | zero =>
        simp only [List.getElem?_cons_zero, Option.some.injEq] at hp
        subst hp
        refine ⟨_, List.getElem?_cons_zero, fun hle => absurd hrec (not_lt.mpr hle), fun _ => ?_⟩
        refine ⟨t, 60 + rnd k * 40, ?_, hgap0, hgap1, rfl, ?_, ?_, ?_, rfl, rfl, rfl⟩
        · simpa using htop
        · intro q hq
          have := hlow q hq
          show t - (60 + rnd k * 40) < q.y
          linarith
        · exact mul_nonneg (hr (k + 1)).1 (by linarith)
        · show rnd (k + 1) * (W - PLATFORM_W) < W - PLATFORM_W
          have hpos : 0 < W - PLATFORM_W := by linarith
          nlinarith [(hr (k + 1)).2]
      | succ j =>
        rw [List.getElem?_cons_succ] at hp
        have htop2 := isTopMost_push t (60 + rnd k * 40) done ps p0
          { p0 with y := t - (60 + rnd k * 40), x := rnd (k + 1) * (W - PLATFORM_W),
                    type := PlatformType.normal } htop rfl (by linarith)
        have hlow2 : ∀ q ∈ orig, t - (60 + rnd k * 40) ≤ q.y := by
          intro q hq
          have := hlow q hq
          linarith
        obtain ⟨p1, h1, h2, h3⟩ := ih _ (k + 2) _ htop2 hlow2 j p hp
        refine ⟨p1, by rw [List.getElem?_cons_succ]; exact h1, h2, fun hy => ?_⟩
        have h4 := h3 hy
        simpa using h4
    · rw [updatePlatformsLoop_keep W H rnd k t p0 ps hrec]
      cases i with
      | zero =>
        simp only [List.getElem?_cons_zero, Option.some.injEq] at hp
        subst hp
        exact ⟨_, List.getElem?_cons_zero, fun _ => rfl, fun hy => absurd hy hrec⟩
      | succ j =>
        rw [List.getElem?_cons_succ] at hp
        have htop2 : IsTopMost t ((done ++ [p0]) ++ ps) := by
          simpa using htop
        obtain ⟨p1, h1, h2, h3⟩ := ih _ k t htop2 hlow j p hp
        refine ⟨p1, by rw [List.getElem?_cons_succ]; exact h1, h2, fun hy => ?_⟩
        have h4 := h3 hy
        simpa using h4

/-! ## Platform recycling -/

/-- C19, amended: for `W > PLATFORM_W` and draws in `[0, 1)`, `updatePlatforms` keeps the
length of the field, leaves every platform with `y ≤ H + 60` as it is, and moves every
platform with `y > H + 60` to `y = t - gap` with `60 ≤ gap ≤ 100`, where `t` is the smallest
`y` of the field at that moment (the platforms before it as already updated, itself and the
later ones as they were); the new `y` is strictly smaller than the `y` of every platform of
the field before the call, the new `x` lies in `[0, W - PLATFORM_W)`, the type is normal and
the size is kept. The bounds `60 ≤ gap ≤ 100` also hold for the gap as the program computes
it in binary64 (`gapDouble`), where the upper bound is attained. -/
theorem updatePlatforms_recycles (W H : ℚ) (rnd : ℕ → ℚ) (ps : List Platform)
    (hW : PLATFORM_W < W) (hr : ∀ n, 0 ≤ rnd n ∧ rnd n < 1) :
    (updatePlatforms W H rnd ps).length = ps.length ∧
    (∀ (i : ℕ) (p : Platform), ps[i]? = some p →
      ∃ p1, (updatePlatforms W H rnd ps)[i]? = some p1 ∧
        (p.y ≤ H + 60 → p1 = p) ∧
        (p.y > H + 60 →
          ∃ t gap : ℚ,
            IsTopMost t ((updatePlatforms W H rnd ps).take i ++ ps.drop i) ∧
            60 ≤ gap ∧ gap ≤ 100 ∧ p1.y = t - gap ∧
            (∀ q ∈ ps, p1.y < q.y) ∧
            0 ≤ p1.x ∧ p1.x < W - PLATFORM_W ∧
            p1.type = PlatformType.normal ∧ p1.w = p.w ∧ p1.h = p.h)) ∧
    (∀ n, 60 ≤ gapDouble (rnd n) ∧ gapDouble (rnd n) ≤ 100) := by
  refine ⟨updatePlatforms_length W H rnd ps, ?_, fun n => gapDouble_bounds _ (hr n).1 (hr n).2⟩
  intro i p hp
  cases ps with
  | nil => simp at hp
  | cons p0 rest =>
    have htop := minY_isTopMost p0 rest
    obtain ⟨p1, h1, h2, h3⟩ := updatePlatformsLoop_spec W H rnd hW hr (p0 :: rest)
      (p0 :: rest) [] 0 (minY p0 rest) (by simpa using htop) htop.2 i p hp
    refine ⟨p1, h1, h2, fun hy => ?_⟩
    obtain ⟨t, gap, ht, hg0, hg1, hrest⟩ := h3 hy
    exact ⟨t, gap, by simpa [updatePlatforms] using ht, hg0, le_of_lt hg1, hrest⟩

lemma halfDraws_unit (n : ℕ) : 0 ≤ halfDraws n ∧ halfDraws n < 1 := by
  norm_num [halfDraws]

/-- Witness of C19: on a 400 x 600 canvas the first platform of the example field, at
y = 700 > 660, is moved 80 above the top 50 of the field, to y = -30 and x = 165, and becomes
normal; the two others stay. -/
theorem updatePlatforms_recycles_witness :
    PLATFORM_W < 400 ∧
    (∃ p1, (updatePlatforms 400 600 halfDraws recycleField)[0]? = some p1 ∧
      (∀ q ∈ recycleField, p1.y < q.y) ∧ p1.type = PlatformType.normal) ∧
    updatePlatforms 400 600 halfDraws recycleField =
      [ { x := 165, y := -30, w := PLATFORM_W, h := PLATFORM_H, type := PlatformType.normal },
        { x := 200, y := 100, w := PLATFORM_W, h := PLATFORM_H, type := PlatformType.normal },
        { x := 120, y := 50, w := PLATFORM_W, h := PLATFORM_H,
          type := PlatformType.normal } ] := by
  have hW : PLATFORM_W < 400 := by norm_num [PLATFORM_W]
  refine ⟨hW, ?_, ?_⟩
  · obtain ⟨p1, h1, _, h3⟩ := (updatePlatforms_recycles 400 600 halfDraws recycleField hW
      halfDraws_unit).2.1 0
      { x := 10, y := 700, w := PLATFORM_W, h := PLATFORM_H, type := PlatformType.break_ } rfl
    obtain ⟨t, gap, _, _, _, _, h4, _, _, h5, _⟩ := h3 (by norm_num)
    exact ⟨p1, h1, h4, h5⟩
  · simp only [updatePlatforms, recycleField, minY, updatePlatformsLoop, List.foldl_cons,
      List.foldl_nil]
    norm_num [halfDraws, PLATFORM_W]

/-! ## Landing in crashing mode -/

/-- C17, as stated, fails: `handleCollision` returns at once when the mode is not playing.
In the crashing example (crash armed) the falling player crosses the top of the second
platform during the tick, yet after the tick `vy` is `5 + 0.35 = 5.35`, not 2, and no platform
is break. -/
theorem crashing_tick_skips_landing :
    crashingEngine.state.mode = Mode.crashing ∧
    crashingEngine.state.crashArmed = true ∧
    0 < crashingEngine.player.vy ∧
    landsOn crashingEngine.player.y
      (movePlayer 400 (1667 / 100) stillFrame.keys crashingEngine.player)
      { x := 170, y := 336, w := PLATFORM_W, h := PLATFORM_H, type := PlatformType.normal }
      = true ∧
    (updateState 400 600 (1667 / 100) stillFrame.keys halfDraws crashingEngine).player.vy
      = 535 / 100 ∧
    (updateState 400 600 (1667 / 100) stillFrame.keys halfDraws crashingEngine).platforms =
      [ { x := 0, y := 500, w := PLATFORM_W, h := PLATFORM_H, type := PlatformType.normal },
        { x := 170, y := 336, w := PLATFORM_W, h := PLATFORM_H,
          type := PlatformType.normal } ] := by
  have hm : crashingEngine.state.mode = Mode.crashing := rfl
  have hnp : crashingEngine.state.mode ≠ Mode.playing := by rw [hm]; decide
  refine ⟨rfl, rfl, by norm_num [crashingEngine, fallingEngine], ?_, ?_, ?_⟩
  · norm_num [landsOn, movePlayer, crashingEngine, fallingEngine, stillFrame, GRAVITY,
      MOVE_SPEED, PLAYER_W, PLAYER_H, PLATFORM_W]
  · rw [updateState_player 400 600 (1667 / 100) stillFrame.keys halfDraws crashingEngine
      (Or.inr hm),
      afterCollision_of_not_falling 400 600 (1667 / 100) stillFrame.keys crashingEngine
        (Or.inl hnp),
      afterScroll_crashing 400 600 (1667 / 100) stillFrame.keys crashingEngine hm]
    norm_num [afterMove, movePlayer, crashingEngine, fallingEngine, stillFrame, GRAVITY,
      MOVE_SPEED, PLAYER_W]
  · rw [updateState_platforms 400 600 (1667 / 100) stillFrame.keys halfDraws crashingEngine
      (Or.inr hm),
      afterCollision_of_not_falling 400 600 (1667 / 100) stillFrame.keys crashingEngine
        (Or.inl hnp),
      afterScroll_crashing 400 600 (1667 / 100) stillFrame.keys crashingEngine hm]
    simp only [afterMove, crashingEngine, fallingEngine, updatePlatforms, minY,
      updatePlatformsLoop, List.foldl_cons, List.foldl_nil]
    norm_num

/-- C17, amended: landing detection runs in playing mode only. In crashing mode
`handleCollision` returns the engine unchanged, so the tick leaves the player as `movePlayer`
computes it (`vy` is the old `vy` plus `GRAVITY * delta / 16.67`), the platforms are those of
`updatePlatforms` on the old field, and every platform of the new field either was in the old
field or is of type normal: the tick marks no platform break. -/
theorem crashing_tick_no_landing (W H delta prevY : ℚ) (keys : Keys) (rnd : ℕ → ℚ)
    (e : Engine) (hm : e.state.mode = Mode.crashing) :
    handleCollision prevY e = e ∧
    (updateState W H delta keys rnd e).player = movePlayer W delta keys e.player ∧
    (updateState W H delta keys rnd e).player.vy
      = e.player.vy + GRAVITY * (delta / (1667 / 100)) ∧
    (updateState W H delta keys rnd e).platforms = updatePlatforms W H rnd e.platforms ∧
    (∀ q ∈ (updateState W H delta keys rnd e).platforms,
      q ∈ e.platforms ∨ q.type = PlatformType.normal) := by
  have hnp : e.state.mode ≠ Mode.playing := by rw [hm]; decide
  have hpl : (updateState W H delta keys rnd e).player = movePlayer W delta keys e.player := by
    rw [updateState_player W H delta keys rnd e (Or.inr hm),
      afterCollision_of_not_falling W H delta keys e (Or.inl hnp),
      afterScroll_crashing W H delta keys e hm]
    rfl
  have hps : (updateState W H delta keys rnd e).platforms
      = updatePlatforms W H rnd e.platforms := by
    rw [updateState_platforms W H delta keys rnd e (Or.inr hm),
      afterCollision_of_not_falling W H delta keys e (Or.inl hnp),
      afterScroll_crashing W H delta keys e hm]
    rfl
  refine ⟨handleCollision_inactive prevY e (Or.inl hnp), hpl, ?_, hps, ?_⟩
  · rw [hpl]
    rfl
  · rw [hps]
    exact updatePlatforms_mem W H rnd e.platforms

/-- Witness of C17 amended: the tick of the crashing example leaves `vy` at 5.35 and every
platform of the new field is an old one or normal. -/
theorem crashing_tick_no_landing_witness :
    crashingEngine.state.mode = Mode.crashing ∧
    handleCollision 300 crashingEngine = crashingEngine ∧
    (updateState 400 600 (1667 / 100) stillFrame.keys halfDraws crashingEngine).player.vy
      = 5 + GRAVITY * ((1667 / 100) / (1667 / 100)) :=
  ⟨rfl,
    (crashing_tick_no_landing 400 600 (1667 / 100) 300 stillFrame.keys halfDraws
      crashingEngine rfl).1,
    (crashing_tick_no_landing 400 600 (1667 / 100) 300 stillFrame.keys halfDraws
      crashingEngine rfl).2.2.1⟩

/-! ## The two loops in binary64 -/

lemma maxDraws_unit (n : ℕ) : 0 ≤ maxDraws n ∧ maxDraws n < 1 := by
  norm_num [maxDraws]

lemma gapDouble_maxDraws (n : ℕ) : gapDouble (maxDraws n) = 100 := by
  have hb1 : binade (maxDraws n * 40) = ((5 : ℕ) : ℤ) :=
    binade_of_large _ 5 (by norm_num) (by norm_num [maxDraws, abs_of_pos]) (by norm_num [maxDraws, abs_of_pos])
  have h1 : roundToDouble (maxDraws n * 40) = 40 - 1 / 2 ^ 47 := by
    rw [roundToDouble_of_binade _ _ hb1]
    norm_num [maxDraws, roundHalfEven]
  have hb2 : binade (60 + (40 - 1 / 2 ^ 47) : ℚ) = ((6 : ℕ) : ℤ) :=
    binade_of_large _ 6 (by norm_num) (by norm_num [abs_of_pos]) (by norm_num [abs_of_pos])
  rw [gapDouble, h1, roundToDouble_of_binade _ _ hb2]
  norm_num [roundHalfEven]

lemma roundToDouble_recycle_values (n : ℕ) :
    roundToDouble (600 + 60) = 660 ∧ roundToDouble (50 - 100) = -50 ∧
    roundToDouble (400 - PLATFORM_W) = 330 ∧
    roundToDouble (maxDraws n * 330) = 330 - 1 / 2 ^ 44 := by
  have hb1 : binade (600 + 60 : ℚ) = ((9 : ℕ) : ℤ) :=
    binade_of_large _ 9 (by norm_num) (by norm_num) (by norm_num)
  have hb2 : binade (50 - 100 : ℚ) = ((5 : ℕ) : ℤ) :=
    binade_of_large _ 5 (by norm_num) (by norm_num) (by norm_num)
  have hb3 : binade (400 - PLATFORM_W) = ((8 : ℕ) : ℤ) :=
    binade_of_large _ 8 (by norm_num) (by norm_num [PLATFORM_W]) (by norm_num [PLATFORM_W])
  have hb4 : binade (maxDraws n * 330) = ((8 : ℕ) : ℤ) :=
    binade_of_large _ 8 (by norm_num) (by norm_num [maxDraws, abs_of_pos]) (by norm_num [maxDraws, abs_of_pos])
  refine ⟨?_, ?_, ?_, ?_⟩
  · rw [roundToDouble_of_binade _ _ hb1]
    norm_num [roundHalfEven]
  · rw [roundToDouble_of_binade _ _ hb2]
    norm_num [roundHalfEven]
  · rw [roundToDouble_of_binade _ _ hb3]
    norm_num [roundHalfEven, PLATFORM_W]
  · rw [roundToDouble_of_binade _ _ hb4]
    norm_num [roundHalfEven, maxDraws]

/-- C19, as stated, fails in the arithmetic of the program: at the largest draw below 1 the
product `r * 40` rounds to `40 - 2^-47` and the sum `60 + r * 40` rounds to exactly 100. On a
400 x 600 canvas the first platform of the example field (y = 700, top of the field 50) is
moved to `50 - 100 = -50`: the gap is 100, not below 100. -/
theorem recycle_gap_reaches_hundred :
    (∀ n, 0 ≤ maxDraws n ∧ maxDraws n < 1) ∧
    gapDouble (maxDraws 0) = 100 ∧
    updatePlatformsDouble 400 600 maxDraws recycleField =
      [ { x := 330 - 1 / 2 ^ 44, y := 50 - 100, w := PLATFORM_W, h := PLATFORM_H,
          type := PlatformType.normal },
        { x := 200, y := 100, w := PLATFORM_W, h := PLATFORM_H, type := PlatformType.normal },
        { x := 120, y := 50, w := PLATFORM_W, h := PLATFORM_H,
          type := PlatformType.normal } ] := by
  refine ⟨maxDraws_unit, gapDouble_maxDraws 0, ?_⟩
  obtain ⟨h660, hy, hw, hx⟩ := roundToDouble_recycle_values 1
  have hmin : minY
      { x := 10, y := 700, w := PLATFORM_W, h := PLATFORM_H, type := PlatformType.break_ }
      [ { x := 200, y := 100, w := PLATFORM_W, h := PLATFORM_H, type := PlatformType.normal },
        { x := 120, y := 50, w := PLATFORM_W, h := PLATFORM_H, type := PlatformType.normal } ]
      = 50 := by
    norm_num [minY]
  simp only [updatePlatformsDouble, recycleField, hmin, updatePlatformsLoopDouble, h660,
    gapDouble_maxDraws, hy, hw, zero_add, hx]
  norm_num

lemma roundToDouble_scroll_values :
    roundToDouble scrollShift = scrollShift ∧
    roundToDouble (560 + scrollShift) = 560 + 2638827906662 / 2 ^ 43 ∧
    roundToDouble (500 + scrollShift) = 500 + 5277655813325 / 2 ^ 44 := by
  have hb1 : binade scrollShift = -((2 : ℕ) : ℤ) :=
    binade_of_small _ 2 (by norm_num) (by norm_num) (by norm_num [scrollShift, abs_of_pos])
      (by norm_num [scrollShift, abs_of_pos])
  have hb2 : binade (560 + scrollShift) = ((9 : ℕ) : ℤ) :=
    binade_of_large _ 9 (by norm_num) (by norm_num [scrollShift, abs_of_pos])
      (by norm_num [scrollShift, abs_of_pos])
  have hb3 : binade (500 + scrollShift) = ((8 : ℕ) : ℤ) :=
    binade_of_large _ 8 (by norm_num) (by norm_num [scrollShift, abs_of_pos])
      (by norm_num [scrollShift, abs_of_pos])
  refine ⟨?_, ?_, ?_⟩
  · rw [roundToDouble_of_binade _ _ hb1]
    norm_num [roundHalfEven, scrollShift]
  · rw [roundToDouble_of_binade _ _ hb2]
    norm_num [roundHalfEven, scrollShift]
  · rw [roundToDouble_of_binade _ _ hb3]
    norm_num [roundHalfEven, scrollShift]

/-- C18, as stated, fails in the arithmetic of the program: each `platform.y += shift` is
rounded on its own. With the shift `180 - y1` for `y1` the binary64 number nearest to 179.7,
the platforms at 560 and 500 are moved to `560 + 2638827906662 / 2^43` and
`500 + 5277655813325 / 2^44`: their distance changes from 60 to `60 - 2^-44`. -/
theorem scroll_changes_distance :
    roundToDouble scrollShift = scrollShift ∧
    scrollPair.map (fun p => p.y) = [560, 500] ∧
    (scrollPlatformsDouble scrollShift scrollPair).map (fun p => p.y) =
      [560 + 2638827906662 / 2 ^ 43, 500 + 5277655813325 / 2 ^ 44] ∧
    (560 + 2638827906662 / 2 ^ 43 : ℚ) - (500 + 5277655813325 / 2 ^ 44) ≠ 560 - 500 := by
  obtain ⟨h1, h2, h3⟩ := roundToDouble_scroll_values
  refine ⟨h1, rfl, ?_, by norm_num⟩
  simp only [scrollPlatformsDouble, scrollPair, List.map_cons, List.map_nil, h2, h3]

end DoodleCrash
